import Mathlib

/-!
Verification development for the camera livestreaming control plane
(livestreaming core: keepalive pump, MS JSON-RPC client, SDP codec,
stream manager, signaling hub, control API).

The Python sources are shallowly embedded: pure string manipulation
becomes functions on `List Char`, stateful components become explicit
state records with step functions, asynchronous publish/response
outcomes become explicit parameters (lists of outcomes, oracles).
-/

set_option maxRecDepth 4000

namespace Livestream

/-- Decimal digits of a natural number, as produced by Python str(n). -/
def natDigits (n : Nat) : List Char := (Nat.repr n).data

/-- CRLF line terminator used throughout the SDP code. -/
def crlf : List Char := ['\r', '\n']

/-! ## Keepalive pump (livestreaming/core/keepalive.py, KeepaliveSender)

State of one KeepaliveSender.  `lastSuccess` and `lastError` model the
`last_success` timestamp and `last_error` string by recording the index of
the loop iteration that set them. -/

structure KeepaliveState where
  running : Bool
  keepaliveCount : Nat
  errorCount : Nat
  lastSuccess : Option Nat
  lastError : Option Nat
deriving Repr, DecidableEq

/-- Initial state after `start()` set `running = True`. -/
def keepaliveInit : KeepaliveState :=
  { running := true, keepaliveCount := 0, errorCount := 0
    lastSuccess := none, lastError := none }

/-- One call of `_send_keepalive` at loop tick `t`.  `ok` tells whether the
MQTT publish succeeded.  On success the keepalive counter advances and
`last_error` is cleared; on failure the error counter advances and, once it
reaches 5, `running` is set to False.  The caught exception is not
re-raised, so this function never propagates an error to the loop. -/
def send_keepalive (t : Nat) (ok : Bool) (st : KeepaliveState) : KeepaliveState :=
  if ok then
    { st with keepaliveCount := st.keepaliveCount + 1
              lastSuccess := some t
              lastError := none }
  else
    let ec := st.errorCount + 1
    { st with errorCount := ec
              lastError := some t
              running := if 5 ≤ ec then false else st.running }

/-- The `_keepalive_loop` driven by a schedule of publish outcomes, one per
iteration.  The Bool result models whether the error callback `on_error`
was invoked: publish failures are swallowed inside `_send_keepalive`, so no
exception ever escapes the loop body and the callback branch is never
reached on this path; the loop simply observes `running = False` and
exits. -/
def keepalive_loop : List Bool → Nat → KeepaliveState → KeepaliveState × Bool
  | [], _, st => (st, false)
  | ok :: rest, t, st =>
    if st.running then keepalive_loop rest (t + 1) (send_keepalive t ok st)
    else (st, false)

/-! ## MS JSON-RPC client (livestreaming/core/kurento_client.py, KurentoClient)

`resolved` is a history ledger of how each issued request id ended; the
code realizes these outcomes through asyncio futures (set_result,
set_exception(KurentoRequestError), raise of TimeoutError,
set_exception(KurentoConnectionError("Connection closed"))). -/

inductive ReqOutcome where
  | completed
  | rpcFailed
  | timedOut
  | connClosed
deriving Repr, DecidableEq

structure ClientState where
  connected : Bool
  requestId : Nat
  pending : List Nat
  resolved : List (Nat × ReqOutcome)
deriving Repr, DecidableEq

def clientInit : ClientState :=
  { connected := true, requestId := 0, pending := [], resolved := [] }

/-- Observable effect of one client operation. -/
inductive ClientEffect where
  | none
  | assigned (id : Nat)
  | raiseNotConnected
  | raiseTimeout (id : Nat)
  | warnUnknownResponse (id : Nat)
deriving Repr, DecidableEq

inductive ClientOp where
  | sendRequest
  | handleRpcResponse (id : Nat) (isError : Bool)
  | timeoutRequest (id : Nat)
  | cleanup
  | connLost
deriving Repr, DecidableEq

/-- One step of the client.  `sendRequest` models the id assignment and
registration in `send_request` (under the lock: `request_id += 1`);
`handleRpcResponse` models `_handle_rpc_response`; `timeoutRequest` models
the `asyncio.TimeoutError` branch of `send_request` (pop the pending entry,
re-raise to the caller); `cleanup` models `_cleanup` (fail every pending
future with "Connection closed", clear the pending map, mark disconnected),
which the code runs only from `close()` and from a failed `connect()`;
`connLost` models the `_handle_responses` task exiting on an actual
connection loss: its `finally` merely sets `connected = False` and touches
neither `pending_requests` nor any future. -/
def clientStep (st : ClientState) : ClientOp → ClientState × ClientEffect
  | .sendRequest =>
    if st.connected then
      let id := st.requestId + 1
      ({ st with requestId := id, pending := id :: st.pending }, .assigned id)
    else (st, .raiseNotConnected)
  | .handleRpcResponse id isError =>
    if id ∈ st.pending then
      ({ st with pending := st.pending.erase id
                 resolved := (id, if isError then .rpcFailed else .completed) :: st.resolved },
       .none)
    else (st, .warnUnknownResponse id)
  | .timeoutRequest id =>
    if id ∈ st.pending then
      ({ st with pending := st.pending.erase id
                 resolved := (id, .timedOut) :: st.resolved },
       .raiseTimeout id)
    else (st, .raiseTimeout id)
  | .cleanup =>
    ({ st with connected := false
               pending := []
               resolved := st.pending.map (fun id => (id, ReqOutcome.connClosed)) ++ st.resolved },
     .none)
  | .connLost => ({ st with connected := false }, .none)

/-- Run a list of operations. -/
def clientExec (st : ClientState) : List ClientOp → ClientState
  | [] => st
  | op :: ops => clientExec (clientStep st op).1 ops

/-- Request ids handed out along a trace, in invocation order. -/
def assignedIds (st : ClientState) : List ClientOp → List Nat
  | [] => []
  | op :: ops =>
    match clientStep st op with
    | (st', .assigned id) => id :: assignedIds st' ops
    | (st', _) => assignedIds st' ops

/-- Ids mentioned in the resolution ledger. -/
def resolvedIds (st : ClientState) : List Nat := st.resolved.map Prod.fst

/-- Process invariant of the client: the issued ids are exactly 1..requestId
and each of them is either still pending or resolved, never both leaked. -/
def ClientInv (st : ClientState) : Prop :=
  (∀ id, (1 ≤ id ∧ id ≤ st.requestId) ↔ (id ∈ st.pending ∨ id ∈ resolvedIds st))

lemma clientInit_inv : ClientInv clientInit := by
  intro id
  simp [clientInit, resolvedIds]
  omega

lemma mem_erase_imp {l : List Nat} {a b : Nat} (h : a ∈ l.erase b) : a ∈ l :=
  List.mem_of_mem_erase h

lemma clientStep_requestId_mono (st : ClientState) (op : ClientOp) :
    st.requestId ≤ (clientStep st op).1.requestId := by
  cases op <;> simp [clientStep] <;> split <;> simp

lemma clientExec_requestId_mono (st : ClientState) (ops : List ClientOp) :
    st.requestId ≤ (clientExec st ops).requestId := by
  induction ops generalizing st with
  | nil => simp [clientExec]
  | cons op ops ih =>
    calc st.requestId ≤ (clientStep st op).1.requestId := clientStep_requestId_mono st op
      _ ≤ _ := ih _

lemma resolvedIds_cons (st : ClientState) (id : Nat) (o : ReqOutcome) :
    resolvedIds { st with pending := st.pending.erase id
                          resolved := (id, o) :: st.resolved }
      = id :: resolvedIds st := by
  simp [resolvedIds]

/-- Step equation: sendRequest while connected. -/
lemma clientStep_send_conn (st : ClientState) (hc : st.connected = true) :
    clientStep st .sendRequest =
      ({ st with requestId := st.requestId + 1
                 pending := (st.requestId + 1) :: st.pending },
       .assigned (st.requestId + 1)) := by
  simp [clientStep, hc]

lemma clientStep_send_notconn (st : ClientState) (hc : st.connected = false) :
    clientStep st .sendRequest = (st, .raiseNotConnected) := by
  simp [clientStep, hc]

lemma clientStep_resp_mem (st : ClientState) (id : Nat) (e : Bool)
    (hp : id ∈ st.pending) :
    clientStep st (.handleRpcResponse id e) =
      ({ st with pending := st.pending.erase id
                 resolved := (id, if e then .rpcFailed else .completed) :: st.resolved },
       .none) := by
  simp [clientStep, hp]

lemma clientStep_resp_notmem (st : ClientState) (id : Nat) (e : Bool)
    (hp : id ∉ st.pending) :
    clientStep st (.handleRpcResponse id e) = (st, .warnUnknownResponse id) := by
  simp [clientStep, hp]

lemma clientStep_timeout_mem (st : ClientState) (id : Nat) (hp : id ∈ st.pending) :
    clientStep st (.timeoutRequest id) =
      ({ st with pending := st.pending.erase id
                 resolved := (id, .timedOut) :: st.resolved },
       .raiseTimeout id) := by
  simp [clientStep, hp]

lemma clientStep_timeout_notmem (st : ClientState) (id : Nat) (hp : id ∉ st.pending) :
    clientStep st (.timeoutRequest id) = (st, .raiseTimeout id) := by
  simp [clientStep, hp]

lemma clientStep_cleanup (st : ClientState) :
    clientStep st .cleanup =
      ({ st with connected := false
                 pending := []
                 resolved := st.pending.map (fun id => (id, ReqOutcome.connClosed)) ++ st.resolved },
       .none) := rfl

/-- Step equation: connection loss (the response-handler task exiting)
only clears the connected flag. -/
lemma clientStep_connLost (st : ClientState) :
    clientStep st .connLost = ({ st with connected := false }, .none) := rfl

/-- Removing one pending id and recording it keeps the invariant. -/
lemma ClientInv_settle (st : ClientState) (id : Nat) (o : ReqOutcome)
    (h : ClientInv st) (hp : id ∈ st.pending) :
    ClientInv { st with pending := st.pending.erase id
                        resolved := (id, o) :: st.resolved } := by
  intro j
  rw [resolvedIds_cons]
  constructor
  · intro hj
    rcases (h j).mp hj with hjp | hjr
    · by_cases hji : j = id
      · right; simp [hji]
      · left
        show j ∈ st.pending.erase id
        exact (List.mem_erase_of_ne hji).mpr hjp
    · right; exact List.mem_cons_of_mem _ hjr
  · rintro (hjp | hjr)
    · exact (h j).mpr (Or.inl (List.mem_of_mem_erase hjp))
    · rcases List.mem_cons.mp hjr with rfl | hjr
      · exact (h j).mpr (Or.inl hp)
      · exact (h j).mpr (Or.inr hjr)

lemma clientStep_inv (st : ClientState) (op : ClientOp) (h : ClientInv st) :
    ClientInv (clientStep st op).1 := by
  cases op with
  | sendRequest =>
    by_cases hc : st.connected
    · rw [clientStep_send_conn st hc]
      intro j
      constructor
      · rintro ⟨h1, h2⟩
        by_cases hid : j = st.requestId + 1
        · left; simp [hid]
        · have hle : j ≤ st.requestId := by
            simp at h2; omega
          rcases (h j).mp ⟨h1, hle⟩ with hp | hr
          · left; exact List.mem_cons_of_mem _ hp
          · right; exact hr
      · rintro (hp | hr)
        · rcases List.mem_cons.mp hp with rfl | hp
          · simp
          · have := (h j).mpr (Or.inl hp); simp; omega
        · have := (h j).mpr (Or.inr hr); simp; omega
    · rw [clientStep_send_notconn st (by simpa using hc)]
      exact h
  | handleRpcResponse id isError =>
    by_cases hp : id ∈ st.pending
    · rw [clientStep_resp_mem st id isError hp]
      exact ClientInv_settle st id _ h hp
    · rw [clientStep_resp_notmem st id isError hp]
      exact h
  | timeoutRequest id =>
    by_cases hp : id ∈ st.pending
    · rw [clientStep_timeout_mem st id hp]
      exact ClientInv_settle st id _ h hp
    · rw [clientStep_timeout_notmem st id hp]
      exact h
  | cleanup =>
    rw [clientStep_cleanup st]
    intro j
    constructor
    · intro hj
      rcases (h j).mp hj with hjp | hjr
      · right
        simp only [resolvedIds, List.map_append, List.map_map, List.mem_append]
        left
        simp only [List.mem_map, Function.comp]
        exact ⟨j, hjp, rfl⟩
      · right
        simp only [resolvedIds, List.map_append, List.mem_append]
        right
        exact hjr
    · rintro (hjp | hjr)
      · simp at hjp
      · simp only [resolvedIds, List.map_append, List.mem_append] at hjr
        rcases hjr with hjr | hjr
        · simp only [List.map_map, List.mem_map, Function.comp] at hjr
          rcases hjr with ⟨a, ha, rfl⟩
          exact (h a).mpr (Or.inl ha)
        · exact (h j).mpr (Or.inr hjr)
  | connLost =>
    rw [clientStep_connLost st]
    exact h

lemma clientExec_inv (st : ClientState) (ops : List ClientOp) (h : ClientInv st) :
    ClientInv (clientExec st ops) := by
  induction ops generalizing st with
  | nil => simpa [clientExec]
  | cons op ops ih => exact ih _ (clientStep_inv st op h)

lemma assignedIds_cons_not_send (st : ClientState) (op : ClientOp) (ops : List ClientOp)
    (hop : op ≠ .sendRequest) :
    assignedIds st (op :: ops) = assignedIds (clientStep st op).1 ops := by
  cases op with
  | sendRequest => exact absurd rfl hop
  | handleRpcResponse id e =>
    by_cases hp : id ∈ st.pending
    · rw [assignedIds, clientStep_resp_mem st id e hp]
    · rw [assignedIds, clientStep_resp_notmem st id e hp]
  | timeoutRequest id =>
    by_cases hp : id ∈ st.pending
    · rw [assignedIds, clientStep_timeout_mem st id hp]
    · rw [assignedIds, clientStep_timeout_notmem st id hp]
  | cleanup => rw [assignedIds, clientStep_cleanup st]
  | connLost => rw [assignedIds, clientStep_connLost st]

lemma assignedIds_cons_send_conn (st : ClientState) (ops : List ClientOp)
    (hc : st.connected = true) :
    assignedIds st (.sendRequest :: ops) =
      (st.requestId + 1) :: assignedIds (clientStep st .sendRequest).1 ops := by
  rw [assignedIds, clientStep_send_conn st hc]

lemma assignedIds_cons_send_notconn (st : ClientState) (ops : List ClientOp)
    (hc : st.connected = false) :
    assignedIds st (.sendRequest :: ops) = assignedIds st ops := by
  rw [assignedIds, clientStep_send_notconn st hc]

lemma assignedIds_gt (st : ClientState) (ops : List ClientOp) :
    ∀ a ∈ assignedIds st ops, st.requestId < a := by
  induction ops generalizing st with
  | nil => simp [assignedIds]
  | cons op ops ih =>
    intro a ha
    by_cases hop : op = ClientOp.sendRequest
    · subst hop
      by_cases hc : st.connected
      · rw [assignedIds_cons_send_conn st ops hc] at ha
        rcases List.mem_cons.mp ha with rfl | ha
        · omega
        · have h1 := ih _ _ ha
          have h2 : st.requestId ≤ (clientStep st .sendRequest).1.requestId :=
            clientStep_requestId_mono st _
          omega
      · rw [assignedIds_cons_send_notconn st ops (by simpa using hc)] at ha
        exact ih _ _ ha
    · rw [assignedIds_cons_not_send st op ops hop] at ha
      have h1 := ih _ _ ha
      have h2 : st.requestId ≤ (clientStep st op).1.requestId :=
        clientStep_requestId_mono st _
      omega

lemma assignedIds_pairwise (st : ClientState) (ops : List ClientOp) :
    (assignedIds st ops).Pairwise (· < ·) := by
  induction ops generalizing st with
  | nil => simp [assignedIds]
  | cons op ops ih =>
    by_cases hop : op = ClientOp.sendRequest
    · subst hop
      by_cases hc : st.connected
      · rw [assignedIds_cons_send_conn st ops hc]
        refine List.pairwise_cons.mpr ⟨?_, ih _⟩
        intro a ha
        have h1 := assignedIds_gt _ _ _ ha
        have h2 : st.requestId + 1 ≤ (clientStep st .sendRequest).1.requestId := by
          rw [clientStep_send_conn st hc]
        omega
      · rw [assignedIds_cons_send_notconn st ops (by simpa using hc)]
        exact ih st
    · rw [assignedIds_cons_not_send st op ops hop]
      exact ih _

lemma clientExec_append (st : ClientState) (ops ops' : List ClientOp) :
    clientExec st (ops ++ ops') = clientExec (clientExec st ops) ops' := by
  induction ops generalizing st with
  | nil => simp [clientExec]
  | cons op ops ih => simp [clientExec, ih]

/-! ## Stream manager and control API
(livestreaming/core/stream_manager.py, livestreaming/server/api_server.py) -/

inductive StreamState where
  | idle
  | starting
  | active
  | stopping
  | error
  | stopped
deriving Repr, DecidableEq

/-- Observable state of one StreamManager. -/
structure ManagerState where
  cameraId : String
  streamId : String
  state : StreamState
  pipelineId : Option String
  rtpEndpointId : Option String
  keepaliveRunning : Bool
  mqttConnected : Bool
deriving Repr, DecidableEq

/-- One viewer session of the signaling hub.  `socketOpen` records whether
the server has left the websocket open. -/
structure ViewerSession where
  viewerId : String
  cameraId : String
  streamId : String
  webrtcEndpointId : Option String
  connected : Bool
  socketOpen : Bool
deriving Repr, DecidableEq

/-- Process-wide mutable state shared by the Control API and the Signaling
Hub, plus ledgers of the release operations issued to the media server. -/
structure SystemState where
  streams : List (String × ManagerState)
  viewers : List ViewerSession
  releasedPipelines : List String
  releasedEndpoints : List String
deriving Repr, DecidableEq

def lookupStream : List (String × ManagerState) → String → Option ManagerState
  | [], _ => none
  | (k, v) :: rest, cam => if k = cam then some v else lookupStream rest cam

def removeStream : List (String × ManagerState) → String → List (String × ManagerState)
  | [], _ => []
  | (k, v) :: rest, cam =>
    if k = cam then removeStream rest cam else (k, v) :: removeStream rest cam

lemma lookupStream_remove (l : List (String × ManagerState)) (cam : String) :
    lookupStream (removeStream l cam) cam = none := by
  induction l with
  | nil => simp [removeStream, lookupStream]
  | cons p rest ih =>
    rcases p with ⟨k, v⟩
    by_cases hk : k = cam
    · simp [removeStream, hk, ih]
    · simp [removeStream, lookupStream, hk, ih]

/-- Result of StreamManager.stop_stream. -/
structure StopResult where
  manager : ManagerState
  released : List String
  stopPublished : Bool
deriving Repr, DecidableEq

/-- `StreamManager.stop_stream` on the no-exception transport path:
set STOPPING, stop the keepalive sender, best-effort publish of the stop
command (skipped without an MQTT client), release the pipeline and clear
resource ids (`_cleanup_resources`), disconnect MQTT, set STOPPED.
The viewer sessions of the signaling hub are not touched anywhere in
this method. -/
def stop_stream (m : ManagerState) : StopResult :=
  let m1 : ManagerState := { m with state := .stopping }
  let m2 : ManagerState := { m1 with keepaliveRunning := false }
  let published := m2.mqttConnected
  let released : List String := match m2.pipelineId with
    | some p => [p]
    | none => []
  let m3 : ManagerState := { m2 with pipelineId := none, rtpEndpointId := none }
  let m4 : ManagerState := { m3 with mqttConnected := false }
  let m5 : ManagerState := { m4 with state := .stopped }
  { manager := m5, released := released, stopPublished := published }

/-- `APIServer._stop_stream_internal`: stop the manager, remove it from the
session map.  Returns `none` when no manager exists (ValueError). -/
def stop_stream_internal (cam : String) (sys : SystemState) :
    Option (SystemState × StopResult) :=
  match lookupStream sys.streams cam with
  | none => none
  | some m =>
    let r := stop_stream m
    some ({ sys with streams := removeStream sys.streams cam
                     releasedPipelines := sys.releasedPipelines ++ r.released },
          r)

/-- `APIServer.stop_stream` (POST /streams/.../stop): 404 when the camera
has no session, otherwise stop and remove it and answer 200. -/
def api_stop_stream (cam : String) (sys : SystemState) : Nat × SystemState :=
  match stop_stream_internal cam sys with
  | none => (404, sys)
  | some (sys', _) => (200, sys')

/-- `APIServer.start_stream` (POST /streams/...):
if a session exists and is Active, answer 409 without touching anything;
if a session exists but is inactive, stop and delete it first; then build
and start a fresh manager.  The outcome of `StreamManager.start_stream`
(which depends on the media server and the broker) is supplied as the
`attempt` oracle: `some m` is a successful start, `none` a failure. -/
def api_start_stream (cam : String) (attempt : Option ManagerState)
    (sys : SystemState) : Nat × SystemState :=
  let startAttempt : SystemState → Nat × SystemState := fun s =>
    match attempt with
    | some m' => (201, { s with streams := (cam, m') :: removeStream s.streams cam })
    | none => (500, s)
  match lookupStream sys.streams cam with
  | some existing =>
    if existing.state = .active then (409, sys)
    else
      let r := stop_stream existing
      startAttempt { sys with streams := removeStream sys.streams cam
                              releasedPipelines := sys.releasedPipelines ++ r.released }
  | none => startAttempt sys

/-! ## Signaling hub (livestreaming/server/signaling_server.py) -/

/-- Incoming `{type:"viewer"}` message fields (absent key ↦ none). -/
structure ViewerMsg where
  cameraId : Option String
  streamId : Option String
  sdpOffer : Option String
deriving Repr, DecidableEq

/-- Operations issued to the media server while attaching a viewer. -/
inductive KOp where
  | createWebRtcEndpoint (pipeline : String)
  | subscribeEvent (obj : String) (eventType : String)
  | setMaxVideoSendBandwidth (obj : String) (bw : Nat)
  | setMinVideoSendBandwidth (obj : String) (bw : Nat)
  | connectEndpoints (src : String) (snk : String)
  | processOffer (obj : String) (offer : String)
  | gatherCandidates (obj : String)
deriving Repr, DecidableEq

/-- Messages the hub sends on a viewer websocket. -/
inductive OutMsg where
  | viewerResponse (sdpAnswer : String) (viewerId : String)
  | iceCandidate (candidate : String)
  | errorMsg (message : String)
deriving Repr, DecidableEq

structure SigState where
  viewers : List ViewerSession
deriving Repr, DecidableEq

/-- Number of viewers bound to a given camera and stream id. -/
def viewer_count_for (vs : List ViewerSession) (cam sid : String) : Nat :=
  (vs.filter (fun v => v.cameraId == cam && v.streamId == sid)).length

/-- The contract error text raised when the viewer cap is reached. -/
def maxViewersMsg (cap : Nat) : String :=
  "Maximum viewers (" ++ Nat.repr cap ++ ") reached for stream"

/-- MS-side answers needed along the attach path. -/
structure AttachOracle where
  webrtcId : String
  sdpAnswer : String
deriving Repr, DecidableEq

structure AttachOk where
  state : SigState
  sends : List OutMsg
  ops : List KOp
  viewerId : String
deriving Repr, DecidableEq

/-- `SignalingServer._handle_viewer_request`: validate fields, enforce the
viewer cap, look up the stream connection info, then create the sink
endpoint, subscribe, set bandwidth, connect, record the viewer, process
the offer, gather candidates and answer.  Errors are raised as
SignalingError before any endpoint is created or viewer recorded. -/
def handle_viewer_request (cap : Nat) (connInfo : Option (String × String))
    (newViewerId : String) (orc : AttachOracle) (st : SigState)
    (msg : ViewerMsg) : Except String AttachOk :=
  match msg.cameraId, msg.streamId, msg.sdpOffer with
  | some cam, some sid, some offer =>
    if cam = "" ∨ sid = "" ∨ offer = "" then
      .error "Missing required fields: cameraId, streamId, sdpOffer"
    else if cap ≤ viewer_count_for st.viewers cam sid then
      .error (maxViewersMsg cap)
    else
      match connInfo with
      | none => .error ("No active stream found for camera " ++ cam)
      | some (pipelineId, rtpId) =>
        let wid := orc.webrtcId
        let viewer : ViewerSession :=
          { viewerId := newViewerId, cameraId := cam, streamId := sid
            webrtcEndpointId := some wid, connected := true, socketOpen := true }
        .ok { state := { viewers := st.viewers ++ [viewer] }
              sends := [.viewerResponse orc.sdpAnswer newViewerId]
              ops := [.createWebRtcEndpoint pipelineId,
                      .subscribeEvent wid "OnIceCandidate",
                      .setMaxVideoSendBandwidth wid 5000,
                      .setMinVideoSendBandwidth wid 500,
                      .connectEndpoints rtpId wid,
                      .processOffer wid offer,
                      .gatherCandidates wid]
              viewerId := newViewerId }
  | _, _, _ => .error "Missing required fields: cameraId, streamId, sdpOffer"

structure ClientHandleResult where
  state : SigState
  sends : List OutMsg
  ops : List KOp
  socketClosed : Bool
deriving Repr, DecidableEq

/-- One `{type:"viewer"}` message as dispatched by
`SignalingServer._handle_client`: a SignalingError is caught in the message
loop, reported with an in-band `{type:"error"}` message, and the loop then
keeps listening — the websocket is not closed by the server. -/
def handle_client_viewer (cap : Nat) (connInfo : Option (String × String))
    (newViewerId : String) (orc : AttachOracle) (st : SigState)
    (msg : ViewerMsg) : ClientHandleResult :=
  match handle_viewer_request cap connInfo newViewerId orc st msg with
  | .ok r => { state := r.state, sends := r.sends, ops := r.ops, socketClosed := false }
  | .error e => { state := st, sends := [.errorMsg e], ops := [], socketClosed := false }

/-- Incoming MS notification, with the fields the relay extracts:
`method`, `params.value.type`, `params.value.object`,
`params.value.data.candidate` (payload kept opaque as its JSON text). -/
structure KEventMsg where
  method : Option String
  innerType : Option String
  objectId : Option String
  candidate : Option String
deriving Repr, DecidableEq

/-- `SignalingServer._handle_ice_candidate_from_kurento`: unwrap the
`onEvent` envelope, require the inner type `OnIceCandidate`, require both
`object` and `candidate` truthy, then send the candidate to the first
viewer whose sink endpoint id matches (the loop breaks after it).
Returns the list of (viewerId, candidate) websocket sends. -/
def handle_ice_candidate_from_kurento (ev : KEventMsg)
    (viewers : List ViewerSession) : List (String × String) :=
  if ev.method ≠ some "onEvent" then []
  else if ev.innerType ≠ some "OnIceCandidate" then []
  else
    match ev.objectId, ev.candidate with
    | some obj, some cand =>
      if obj = "" ∨ cand = "" then []
      else
        match viewers.find? (fun v => v.webrtcEndpointId == some obj) with
        | some v => [(v.viewerId, cand)]
        | none => []
    | _, _ => []

/-! ## Claim theorems: keepalive, MS client, control API, signaling hub -/

/-- C1: evaluation of the keepalive error policy at the inputs where the
code and the stated policy diverge.  Over the publish-outcome schedule
[fail, success, fail, fail, fail, fail] the pump stops (`running = false`)
even though a success occurred before the fifth consecutive failure,
because `_send_keepalive` never resets `error_count` on success (the
success after the first failure leaves it at 1); and over five straight
failures the pump stops without ever invoking the `on_error` callback,
because `_send_keepalive` swallows the publish exception. -/
theorem keepalive_error_policy_eval :
    (keepalive_loop [false, true, false, false, false, false] 0 keepaliveInit).1.running = false
    ∧ (keepalive_loop [false, true, false, false, false, false] 0 keepaliveInit).2 = false
    ∧ (send_keepalive 1 true (send_keepalive 0 false keepaliveInit)).errorCount = 1
    ∧ (keepalive_loop [false, false, false, false, false] 0 keepaliveInit).1.running = false
    ∧ (keepalive_loop [false, false, false, false, false] 0 keepaliveInit).2 = false := by
  decide

/-- C5 (amended): request ids are assigned strictly increasing in
invocation order (hence pairwise distinct).  Explicit cleanup — which the
code runs only from close() or a failed connect(), not on mere connection
loss — empties the pending set and records every previously pending
request as failed with the connection-closed error, after which every
issued id 1..requestId carries some final outcome (completed, rpc-failed,
timed out, or connection-closed), so a trace ending in close leaks no id.
Connection loss alone (the _handle_responses task exiting) only marks the
client disconnected: the pending set and the resolution ledger are
untouched, so the still-pending futures are NOT failed with "connection
closed" then — each such request surfaces only later, through its own
per-call timeout. -/
theorem rpc_ids_monotone_and_no_leak (ops : List ClientOp) :
    (assignedIds clientInit ops).Pairwise (· < ·)
    ∧ (clientExec clientInit (ops ++ [.cleanup])).pending = []
    ∧ (∀ id ∈ (clientExec clientInit ops).pending,
        (id, ReqOutcome.connClosed) ∈ (clientExec clientInit (ops ++ [.cleanup])).resolved)
    ∧ (∀ id, 1 ≤ id → id ≤ (clientExec clientInit (ops ++ [.cleanup])).requestId →
        ∃ o, (id, o) ∈ (clientExec clientInit (ops ++ [.cleanup])).resolved)
    ∧ (clientExec clientInit (ops ++ [.connLost])).connected = false
    ∧ (clientExec clientInit (ops ++ [.connLost])).pending =
        (clientExec clientInit ops).pending
    ∧ (clientExec clientInit (ops ++ [.connLost])).resolved =
        (clientExec clientInit ops).resolved := by
  have hfin : clientExec clientInit (ops ++ [.cleanup]) =
      (clientStep (clientExec clientInit ops) .cleanup).1 := by
    rw [clientExec_append]
    rfl
  have hloss : clientExec clientInit (ops ++ [.connLost]) =
      (clientStep (clientExec clientInit ops) .connLost).1 := by
    rw [clientExec_append]
    rfl
  refine ⟨assignedIds_pairwise _ _, ?_, ?_, ?_, ?_, ?_, ?_⟩
  · rw [hfin, clientStep_cleanup]
  · intro id hid
    rw [hfin, clientStep_cleanup]
    simp only [List.mem_append, List.mem_map]
    exact Or.inl ⟨id, hid, rfl⟩
  · intro id h1 h2
    have hinv : ClientInv (clientExec clientInit (ops ++ [.cleanup])) :=
      clientExec_inv _ _ clientInit_inv
    rcases (hinv id).mp ⟨h1, h2⟩ with hp | hr
    · rw [hfin, clientStep_cleanup] at hp
      simp at hp
    · simp only [resolvedIds, List.mem_map] at hr
      rcases hr with ⟨⟨i, o⟩, hmem, heq⟩
      cases heq
      exact ⟨o, hmem⟩
  · rw [hloss, clientStep_connLost]
  · rw [hloss, clientStep_connLost]
  · rw [hloss, clientStep_connLost]

/-- C5 witness: after two requests and a close, request 1 carries a final
outcome; after the same two requests and a bare connection loss, the
pending set is exactly the one before the loss. -/
theorem rpc_ids_monotone_and_no_leak_witness :
    (∃ o, ((1 : Nat), o) ∈
      (clientExec clientInit ([.sendRequest, .sendRequest] ++ [.cleanup])).resolved)
    ∧ (clientExec clientInit ([.sendRequest, .sendRequest] ++ [.connLost])).pending =
        (clientExec clientInit [.sendRequest, .sendRequest]).pending := by
  have h := rpc_ids_monotone_and_no_leak [.sendRequest, .sendRequest]
  exact ⟨h.2.2.2.1 1 (by decide) (by decide), h.2.2.2.2.2.1⟩

/-- C5 counterexample to the original claim's connection-loss half: issue
one request, then lose the connection (the response-handler task exits).
The client is disconnected, yet the request id is still pending and
nothing has been recorded as failed — in particular no future was failed
with "Connection closed" — because _cleanup runs only from close() or a
failed connect(), never on connection loss. -/
theorem rpc_conn_loss_claim_counterexample :
    (clientExec clientInit [.sendRequest, .connLost]).connected = false
    ∧ (clientExec clientInit [.sendRequest, .connLost]).pending = [1]
    ∧ (clientExec clientInit [.sendRequest, .connLost]).resolved = [] := by
  decide

/-- C6: expiry of a call timeout removes the request id from the pending
set (fully, when pending ids are distinct as they are in the running
client) and surfaces a timeout error to the caller; a reply arriving for
an id no longer pending leaves the whole client state unchanged — no
future is completed — and only produces the logged warning. -/
theorem rpc_timeout_and_late_reply (st : ClientState) (id : Nat) (e : Bool) :
    (id ∈ st.pending →
      clientStep st (.timeoutRequest id) =
        ({ st with pending := st.pending.erase id
                   resolved := (id, .timedOut) :: st.resolved },
         .raiseTimeout id))
    ∧ (id ∈ st.pending → st.pending.Nodup →
        id ∉ (clientStep st (.timeoutRequest id)).1.pending)
    ∧ (id ∉ st.pending →
        clientStep st (.handleRpcResponse id e) = (st, .warnUnknownResponse id)) := by
  refine ⟨fun hp => clientStep_timeout_mem st id hp, ?_, fun hp => clientStep_resp_notmem st id e hp⟩
  intro hp hnd
  rw [clientStep_timeout_mem st id hp]
  exact (List.Nodup.mem_erase_iff hnd).not.mpr (by simp)

/-- C6 witness at a concrete state with pending requests 1 and 2. -/
theorem rpc_timeout_and_late_reply_witness :
    (clientStep { connected := true, requestId := 2, pending := [2, 1], resolved := [] }
        (.timeoutRequest 2) =
      ({ connected := true, requestId := 2, pending := [1],
         resolved := [(2, .timedOut)] }, .raiseTimeout 2))
    ∧ (2 : Nat) ∉ (clientStep { connected := true, requestId := 2, pending := [2, 1], resolved := [] }
        (.timeoutRequest 2)).1.pending
    ∧ clientStep { connected := true, requestId := 2, pending := [1], resolved := [] }
        (.handleRpcResponse 2 false) =
      ({ connected := true, requestId := 2, pending := [1], resolved := [] },
       .warnUnknownResponse 2) := by
  have h := rpc_timeout_and_late_reply
    { connected := true, requestId := 2, pending := [2, 1], resolved := [] } 2 false
  have h' := rpc_timeout_and_late_reply
    { connected := true, requestId := 2, pending := [1], resolved := [] } 2 false
  refine ⟨?_, h.2.1 (by decide) (by decide), h'.2.2 (by decide)⟩
  have := h.1 (by decide)
  rw [this]
  decide

/-- C2 (amended): stopping an Active session via POST /streams/.../stop
answers 200, releases its pipeline, stops its keepalive pump, leaves the
manager in state Stopped and removes it from the session map — but the
ViewerSessions attached to the session are NOT released: the viewer list,
the released-endpoint ledger and every viewer socket are unchanged. -/
theorem stop_stream_releases (sys : SystemState) (cam : String) (m : ManagerState)
    (hm : lookupStream sys.streams cam = some m) (_hA : m.state = .active) :
    (api_stop_stream cam sys).1 = 200
    ∧ lookupStream (api_stop_stream cam sys).2.streams cam = none
    ∧ (∀ p, m.pipelineId = some p → p ∈ (api_stop_stream cam sys).2.releasedPipelines)
    ∧ (stop_stream m).manager.state = .stopped
    ∧ (stop_stream m).manager.keepaliveRunning = false
    ∧ (api_stop_stream cam sys).2.viewers = sys.viewers
    ∧ (api_stop_stream cam sys).2.releasedEndpoints = sys.releasedEndpoints := by
  have hr : api_stop_stream cam sys =
      (200, { sys with streams := removeStream sys.streams cam
                       releasedPipelines := sys.releasedPipelines ++ (stop_stream m).released }) := by
    simp [api_stop_stream, stop_stream_internal, hm]
  refine ⟨by rw [hr], ?_, ?_, rfl, rfl, by rw [hr], by rw [hr]⟩
  · rw [hr]
    exact lookupStream_remove sys.streams cam
  · intro p hp
    rw [hr]
    simp [stop_stream, hp]

/-- C2 witness: a concrete active session with one attached viewer. -/
theorem stop_stream_releases_witness :
    (api_stop_stream "CAM1"
      { streams := [("CAM1",
          { cameraId := "CAM1", streamId := "S1", state := .active,
            pipelineId := some "pipe1", rtpEndpointId := some "rtp1",
            keepaliveRunning := true, mqttConnected := true })],
        viewers := [{ viewerId := "V1", cameraId := "CAM1", streamId := "S1",
                      webrtcEndpointId := some "ep1", connected := true, socketOpen := true }],
        releasedPipelines := [], releasedEndpoints := [] }).1 = 200
    ∧ "pipe1" ∈ (api_stop_stream "CAM1"
      { streams := [("CAM1",
          { cameraId := "CAM1", streamId := "S1", state := .active,
            pipelineId := some "pipe1", rtpEndpointId := some "rtp1",
            keepaliveRunning := true, mqttConnected := true })],
        viewers := [{ viewerId := "V1", cameraId := "CAM1", streamId := "S1",
                      webrtcEndpointId := some "ep1", connected := true, socketOpen := true }],
        releasedPipelines := [], releasedEndpoints := [] }).2.releasedPipelines := by
  have h := stop_stream_releases
    { streams := [("CAM1",
        { cameraId := "CAM1", streamId := "S1", state := .active,
          pipelineId := some "pipe1", rtpEndpointId := some "rtp1",
          keepaliveRunning := true, mqttConnected := true })],
      viewers := [{ viewerId := "V1", cameraId := "CAM1", streamId := "S1",
                    webrtcEndpointId := some "ep1", connected := true, socketOpen := true }],
      releasedPipelines := [], releasedEndpoints := [] }
    "CAM1"
    { cameraId := "CAM1", streamId := "S1", state := .active,
      pipelineId := some "pipe1", rtpEndpointId := some "rtp1",
      keepaliveRunning := true, mqttConnected := true }
    (by decide) (by decide)
  exact ⟨h.1, h.2.2.1 "pipe1" rfl⟩

/-- C2 counterexample to the claim as stated: on a concrete system with an
Active session for CAM1 and one attached viewer whose sink endpoint is
"ep1", stopping the stream answers 200 and sets the session Stopped, yet
the viewer is still registered, its sink endpoint has not been released and
its websocket is still open — the claim that stopping releases every
attached ViewerSession (sinks released, sockets closed) is false. -/
theorem stop_stream_claim_counterexample :
    (api_stop_stream "CAM1"
      { streams := [("CAM1",
          { cameraId := "CAM1", streamId := "S1", state := .active,
            pipelineId := some "pipe1", rtpEndpointId := some "rtp1",
            keepaliveRunning := true, mqttConnected := true })],
        viewers := [{ viewerId := "V1", cameraId := "CAM1", streamId := "S1",
                      webrtcEndpointId := some "ep1", connected := true, socketOpen := true }],
        releasedPipelines := [], releasedEndpoints := [] }).1 = 200
    ∧ "ep1" ∉ (api_stop_stream "CAM1"
      { streams := [("CAM1",
          { cameraId := "CAM1", streamId := "S1", state := .active,
            pipelineId := some "pipe1", rtpEndpointId := some "rtp1",
            keepaliveRunning := true, mqttConnected := true })],
        viewers := [{ viewerId := "V1", cameraId := "CAM1", streamId := "S1",
                      webrtcEndpointId := some "ep1", connected := true, socketOpen := true }],
        releasedPipelines := [], releasedEndpoints := [] }).2.releasedEndpoints
    ∧ { viewerId := "V1", cameraId := "CAM1", streamId := "S1",
        webrtcEndpointId := some "ep1", connected := true,
        socketOpen := true : ViewerSession } ∈ (api_stop_stream "CAM1"
      { streams := [("CAM1",
          { cameraId := "CAM1", streamId := "S1", state := .active,
            pipelineId := some "pipe1", rtpEndpointId := some "rtp1",
            keepaliveRunning := true, mqttConnected := true })],
        viewers := [{ viewerId := "V1", cameraId := "CAM1", streamId := "S1",
                      webrtcEndpointId := some "ep1", connected := true, socketOpen := true }],
        releasedPipelines := [], releasedEndpoints := [] }).2.viewers := by
  decide

/-- C7: POST /streams/.../start while the camera already has an Active
session answers 409 and returns the system state unchanged: session map,
manager fields and keepalive flags are all exactly as before. -/
theorem start_active_conflict_409 (sys : SystemState) (cam : String)
    (m : ManagerState) (attempt : Option ManagerState)
    (hm : lookupStream sys.streams cam = some m) (hA : m.state = .active) :
    api_start_stream cam attempt sys = (409, sys) := by
  simp [api_start_stream, hm, hA]

/-- C7 witness: a concrete active session; the start attempt oracle is
irrelevant. -/
theorem start_active_conflict_409_witness :
    api_start_stream "CAM1" none
      { streams := [("CAM1",
          { cameraId := "CAM1", streamId := "S1", state := .active,
            pipelineId := some "pipe1", rtpEndpointId := some "rtp1",
            keepaliveRunning := true, mqttConnected := true })],
        viewers := [], releasedPipelines := [], releasedEndpoints := [] } =
      (409,
       { streams := [("CAM1",
          { cameraId := "CAM1", streamId := "S1", state := .active,
            pipelineId := some "pipe1", rtpEndpointId := some "rtp1",
            keepaliveRunning := true, mqttConnected := true })],
         viewers := [], releasedPipelines := [], releasedEndpoints := [] }) :=
  start_active_conflict_409 _ "CAM1"
    { cameraId := "CAM1", streamId := "S1", state := .active,
      pipelineId := some "pipe1", rtpEndpointId := some "rtp1",
      keepaliveRunning := true, mqttConnected := true }
    none (by decide) (by decide)

/-- C8 (amended): with the cap configured to 10 and ten viewers already on
the camera's stream, the eleventh `{type:"viewer"}` request yields exactly
one in-band message, the error "Maximum viewers (10) reached for stream",
creates no sink endpoint (no media-server operation is issued), records no
ViewerSession and leaves the ten existing viewers untouched — but the
websocket is left open: the server does not disconnect the viewer. -/
theorem viewer_cap_rejects_eleventh (st : SigState)
    (connInfo : Option (String × String)) (vid : String) (orc : AttachOracle)
    (cam sid offer : String)
    (hc : cam ≠ "") (hs : sid ≠ "") (ho : offer ≠ "")
    (hcount : viewer_count_for st.viewers cam sid = 10) :
    handle_client_viewer 10 connInfo vid orc st
        { cameraId := some cam, streamId := some sid, sdpOffer := some offer } =
      { state := st,
        sends := [.errorMsg "Maximum viewers (10) reached for stream"],
        ops := [], socketClosed := false } := by
  have hmsg : maxViewersMsg 10 = "Maximum viewers (10) reached for stream" := by decide
  simp [handle_client_viewer, handle_viewer_request, hc, hs, ho, hcount, hmsg]

/-- C8 witness: ten concrete viewers on CAM1/S1, an eleventh request. -/
theorem viewer_cap_rejects_eleventh_witness :
    handle_client_viewer 10 (some ("pipe1", "rtp1")) "V11"
        { webrtcId := "epX", sdpAnswer := "answer" }
        { viewers := (List.range 10).map (fun i =>
            { viewerId := "V" ++ Nat.repr i, cameraId := "CAM1", streamId := "S1",
              webrtcEndpointId := some ("ep" ++ Nat.repr i), connected := true,
              socketOpen := true }) }
        { cameraId := some "CAM1", streamId := some "S1", sdpOffer := some "offer" } =
      { state := { viewers := (List.range 10).map (fun i =>
            { viewerId := "V" ++ Nat.repr i, cameraId := "CAM1", streamId := "S1",
              webrtcEndpointId := some ("ep" ++ Nat.repr i), connected := true,
              socketOpen := true }) },
        sends := [.errorMsg "Maximum viewers (10) reached for stream"],
        ops := [], socketClosed := false } :=
  viewer_cap_rejects_eleventh _ (some ("pipe1", "rtp1")) "V11"
    { webrtcId := "epX", sdpAnswer := "answer" } "CAM1" "S1" "offer"
    (by decide) (by decide) (by decide) (by decide)

/-- C8 counterexample to the claim as stated: in the same concrete
situation the result leaves the websocket open (`socketClosed = false`),
refuting the part of the claim that says the eleventh viewer is
disconnected; the error branch is caught in the `_handle_client` message
loop, which keeps listening on the socket. -/
theorem viewer_cap_claim_counterexample :
    (handle_client_viewer 10 (some ("pipe1", "rtp1")) "V11"
        { webrtcId := "epX", sdpAnswer := "answer" }
        { viewers := (List.range 10).map (fun i =>
            { viewerId := "V" ++ Nat.repr i, cameraId := "CAM1", streamId := "S1",
              webrtcEndpointId := some ("ep" ++ Nat.repr i), connected := true,
              socketOpen := true }) }
        { cameraId := some "CAM1", streamId := some "S1", sdpOffer := some "offer" }).socketClosed
      = false := by
  decide

/-- Characterization of the ICE relay function: either it sends nothing,
or the event is an onEvent/OnIceCandidate with both fields truthy and it
sends exactly one message, to the first viewer owning the endpoint. -/
lemma relay_cases (ev : KEventMsg) (vs : List ViewerSession) :
    handle_ice_candidate_from_kurento ev vs = []
    ∨ ∃ obj cand v, ev.method = some "onEvent"
        ∧ ev.innerType = some "OnIceCandidate"
        ∧ ev.objectId = some obj ∧ ev.candidate = some cand
        ∧ vs.find? (fun v => v.webrtcEndpointId == some obj) = some v
        ∧ handle_ice_candidate_from_kurento ev vs = [(v.viewerId, cand)] := by
  unfold handle_ice_candidate_from_kurento
  split
  · exact Or.inl rfl
  next hm =>
    split
    · exact Or.inl rfl
    next ht =>
      have hm' : ev.method = some "onEvent" := by
        by_contra hcon
        exact hm hcon
      have ht' : ev.innerType = some "OnIceCandidate" := by
        by_contra hcon
        exact ht hcon
      split
      next obj cand hobj hcand =>
        split
        · exact Or.inl rfl
        next hfalsy =>
          split
          next v hfind =>
            exact Or.inr ⟨obj, cand, v, hm', ht', hobj, hcand, hfind, rfl⟩
          next hfind => exact Or.inl rfl
      next => exact Or.inl rfl

/-- C10: the process-wide event listener relays an ICE candidate only for
notifications whose method is exactly "onEvent" with inner type exactly
"OnIceCandidate"; any other inner type — including the vendor-renamed
"IceCandidateFound" — produces no websocket send at all, and when a
candidate is relayed at most one viewer receives it, namely the first one
whose sink endpoint id equals the event's object field. -/
theorem ice_relay_selective (ev : KEventMsg) (vs : List ViewerSession) :
    (handle_ice_candidate_from_kurento ev vs).length ≤ 1
    ∧ (ev.method ≠ some "onEvent" → handle_ice_candidate_from_kurento ev vs = [])
    ∧ (ev.innerType = some "IceCandidateFound" → handle_ice_candidate_from_kurento ev vs = [])
    ∧ (∀ p ∈ handle_ice_candidate_from_kurento ev vs,
        ev.method = some "onEvent" ∧ ev.innerType = some "OnIceCandidate"
        ∧ ev.candidate = some p.2
        ∧ ∃ v ∈ vs, v.viewerId = p.1 ∧ v.webrtcEndpointId = ev.objectId) := by
  rcases relay_cases ev vs with hnil | ⟨obj, cand, v, hm, ht, hobj, hcand, hfind, hone⟩
  · rw [hnil]
    exact ⟨by simp, fun _ => rfl, fun _ => rfl, by simp⟩
  · rw [hone]
    refine ⟨by simp, ?_, ?_, ?_⟩
    · intro hcon
      exact absurd hm hcon
    · intro hcon
      rw [hcon] at ht
      simp at ht
    · intro p hp
      rcases List.mem_singleton.mp hp with rfl
      refine ⟨hm, ht, by rw [hcand], v, List.mem_of_find?_eq_some hfind, rfl, ?_⟩
      have hb := List.find?_some hfind
      rw [hobj]
      simpa using hb

/-- C10 witness: a vendor-renamed IceCandidateFound event is dropped. -/
theorem ice_relay_selective_witness :
    handle_ice_candidate_from_kurento
      { method := some "onEvent", innerType := some "IceCandidateFound",
        objectId := some "ep1", candidate := some "cand" }
      [{ viewerId := "V1", cameraId := "CAM1", streamId := "S1",
         webrtcEndpointId := some "ep1", connected := true, socketOpen := true }] = [] :=
  (ice_relay_selective _ _).2.2.1 rfl

/-! ## SDP codec (livestreaming/core/sdp_processor.py)

Strings are embedded as `List Char`; the randomness of
`random.randint` / `uuid.uuid4` becomes explicit parameters. -/

structure SDPMediaInfo where
  audio_ssrc : Nat
  video_ssrc : Nat
  cname : List Char
  audio_port : Nat
  video_port : Nat
  rtcp_port : Nat
deriving Repr, DecidableEq

/-- `SDPProcessor._generate_media_info`: the two fixed firmware SSRCs and a
CNAME of the form user{rand10}@host-{hex8}; `user_id` stands for the random
10-digit integer and `host_id` for the 8 hex chars of uuid4().hex[:8]. -/
def generate_media_info (audio_port video_port rtcp_port user_id : Nat)
    (host_id : List Char) : SDPMediaInfo :=
  { audio_ssrc := 229236353
    video_ssrc := 1607797317
    cname := "user".data ++ natDigits user_id ++ "@host-".data ++ host_id
    audio_port := audio_port
    video_port := video_port
    rtcp_port := rtcp_port }

/-- str.join with the CRLF separator. -/
def joinCRLF : List (List Char) → List Char
  | [] => []
  | [l] => l
  | l :: ls => l ++ crlf ++ joinCRLF ls

/-- `SDPProcessor.build_custom_sdp_offer`: the fixed line list joined by
CRLF with a trailing CRLF, plus the generated media info.  `sid` and `sver`
are the two random origin integers. -/
def build_custom_sdp_offer (audio_port video_port rtcp_port sid sver user_id : Nat)
    (host_id : List Char) : List Char × SDPMediaInfo :=
  let mi := generate_media_info audio_port video_port rtcp_port user_id host_id
  let sdp_lines : List (List Char) :=
    [ "v=0".data,
      "o=- ".data ++ natDigits sid ++ " ".data ++ natDigits sver ++ " IN IP4 0.0.0.0".data,
      "s=Camera Livestream".data,
      "c=IN IP4 0.0.0.0".data,
      "t=0 0".data,
      "m=audio ".data ++ natDigits mi.audio_port ++ " RTP/AVPF 96 0".data,
      "a=rtcp:".data ++ natDigits (mi.audio_port + 1),
      "a=rtpmap:96 opus/48000/2".data,
      "a=rtpmap:0 PCMU/8000".data,
      "a=sendrecv".data,
      "a=direction:active".data,
      "a=ssrc:".data ++ natDigits mi.audio_ssrc ++ " cname:".data ++ mi.cname,
      "m=video ".data ++ natDigits mi.video_port ++ " RTP/AVPF 103".data,
      "a=rtcp:".data ++ natDigits (mi.video_port + 1),
      "a=rtpmap:103 H264/90000".data,
      "a=fmtp:103 level-asymmetry-allowed=1;packetization-mode=1;profile-level-id=42e01f".data,
      "a=rtcp-fb:103 nack".data,
      "a=rtcp-fb:103 nack pli".data,
      "a=rtcp-fb:103 goog-remb".data,
      "a=rtcp-fb:103 ccm fir".data,
      "a=sendonly".data,
      "a=direction:active".data,
      "a=ssrc:".data ++ natDigits mi.video_ssrc ++ " cname:".data ++ mi.cname ]
  (joinCRLF sdp_lines ++ crlf, mi)

/-- Generic left-to-right scan-and-substitute, the shape shared by
`re.sub` and `str.replace`: at each position ask the matcher; on
`some (repl, k)` emit `repl` and skip the `k ≥ 1` matched characters, else
copy one character.  Fuel keeps the recursion structural (one unit per
consumed position suffices). -/
def scanSubGo (m : List Char → Option (List Char × Nat)) : Nat → List Char → List Char
  | 0, s => s
  | _, [] => []
  | fuel + 1, c :: rest =>
    match m (c :: rest) with
    | some (repl, k) => repl ++ scanSubGo m fuel (rest.drop (k - 1))
    | none => c :: scanSubGo m fuel rest

def scanSub (m : List Char → Option (List Char × Nat)) (s : List Char) : List Char :=
  scanSubGo m s.length s

lemma scanSubGo_fuel (m : List Char → Option (List Char × Nat)) :
    ∀ f f' s, s.length ≤ f → s.length ≤ f' → scanSubGo m f s = scanSubGo m f' s := by
  intro f
  induction f with
  | zero =>
    intro f' s h _
    have hs : s = [] := List.eq_nil_of_length_eq_zero (Nat.le_zero.mp h)
    subst hs
    cases f' <;> rfl
  | succ f ih =>
    intro f' s h h'
    cases s with
    | nil => cases f' <;> rfl
    | cons c rest =>
      cases f' with
      | zero => simp at h'
      | succ f'' =>
        show (match m (c :: rest) with
              | some (repl, k) => repl ++ scanSubGo m f (rest.drop (k - 1))
              | none => c :: scanSubGo m f rest) =
             (match m (c :: rest) with
              | some (repl, k) => repl ++ scanSubGo m f'' (rest.drop (k - 1))
              | none => c :: scanSubGo m f'' rest)
        cases hm : m (c :: rest) with
        | some rk =>
          rcases rk with ⟨repl, k⟩
          simp only
          have hd := List.length_drop (k - 1) rest
          simp only [List.length_cons] at h h'
          exact congrArg (repl ++ ·) (ih f'' _ (by omega) (by omega))
        | none =>
          simp only
          simp only [List.length_cons] at h h'
          exact congrArg (c :: ·) (ih f'' rest (by omega) (by omega))

lemma scanSub_nil (m : List Char → Option (List Char × Nat)) : scanSub m [] = [] := rfl

lemma scanSub_cons_some (m : List Char → Option (List Char × Nat))
    (c : Char) (rest repl : List Char) (k : Nat) (hm : m (c :: rest) = some (repl, k)) :
    scanSub m (c :: rest) = repl ++ scanSub m (rest.drop (k - 1)) := by
  show scanSubGo m (rest.length + 1) (c :: rest) = _
  show (match m (c :: rest) with
        | some (repl, k) => repl ++ scanSubGo m rest.length (rest.drop (k - 1))
        | none => c :: scanSubGo m rest.length rest) = _
  rw [hm]
  have hd := List.length_drop (k - 1) rest
  exact congrArg (repl ++ ·) (scanSubGo_fuel m rest.length _ _ (by omega) (le_refl _))

lemma scanSub_cons_none (m : List Char → Option (List Char × Nat))
    (c : Char) (rest : List Char) (hm : m (c :: rest) = none) :
    scanSub m (c :: rest) = c :: scanSub m rest := by
  show scanSubGo m (rest.length + 1) (c :: rest) = _
  show (match m (c :: rest) with
        | some (repl, k) => repl ++ scanSubGo m rest.length (rest.drop (k - 1))
        | none => c :: scanSubGo m rest.length rest) = _
  rw [hm]
  rfl

/-- The matcher of Python str.replace (its int argument is the number of
characters consumed). -/
def replaceMatcher (pat rep : List Char) (t : List Char) : Option (List Char × Nat) :=
  if pat ≠ [] ∧ pat <+: t then some (rep, pat.length) else none

/-- Python str.replace: non-overlapping, leftmost first. -/
def strReplace (pat rep : List Char) (s : List Char) : List Char :=
  scanSub (replaceMatcher pat rep) s

/-- The four-character text \r\n as it stands escaped inside JSON. -/
def bsrn : List Char := ['\\', 'r', '\\', 'n']

/-- `escape_sdp_for_json`: replace every CRLF by the literal text \r\n. -/
def escape_sdp_for_json (s : List Char) : List Char := strReplace crlf bsrn s

/-- `unescape_sdp_from_json`: replace the literal text \r\n by CRLF. -/
def unescape_sdp_from_json (s : List Char) : List Char := strReplace bsrn crlf s

def hexDigitChar (n : Nat) : Char := "0123456789abcdef".data.getD n '0'

def hexVal (c : Char) : Option Nat :=
  if '0' ≤ c ∧ c ≤ '9' then some (c.toNat - '0'.toNat)
  else if 'a' ≤ c ∧ c ≤ 'f' then some (c.toNat - 'a'.toNat + 10)
  else if 'A' ≤ c ∧ c ≤ 'F' then some (c.toNat - 'A'.toNat + 10)
  else none

/-- One character as json.dumps (ensure_ascii default) writes it inside a
JSON string: the two-character escapes of its ESCAPE_DCT, \uXXXX for other
control or non-ASCII characters, the character itself otherwise. -/
def py_json_escape_char (c : Char) : List Char :=
  if c = '\\' then ['\\', '\\']
  else if c = '"' then ['\\', '"']
  else if c = '\x08' then ['\\', 'b']
  else if c = '\x0c' then ['\\', 'f']
  else if c = '\n' then ['\\', 'n']
  else if c = '\r' then ['\\', 'r']
  else if c = '\t' then ['\\', 't']
  else if c.toNat < 0x20 ∨ 0x7f ≤ c.toNat then
    ['\\', 'u', hexDigitChar (c.toNat / 4096 % 16), hexDigitChar (c.toNat / 256 % 16),
     hexDigitChar (c.toNat / 16 % 16), hexDigitChar (c.toNat % 16)]
  else [c]

/-- The whole string content as json.dumps encodes it. -/
def py_json_escape : List Char → List Char
  | [] => []
  | c :: rest => py_json_escape_char c ++ py_json_escape rest

/-- The two-character JSON escapes a decoder accepts. -/
def unescapeShort (e : Char) : Option Char :=
  if e = '\\' then some '\\'
  else if e = '"' then some '"'
  else if e = '/' then some '/'
  else if e = 'b' then some '\x08'
  else if e = 'f' then some '\x0c'
  else if e = 'n' then some '\n'
  else if e = 'r' then some '\r'
  else if e = 't' then some '\t'
  else none

/-- JSON string-content decoding, as the camera's JSON decoder restores it. -/
def py_json_unescape : List Char → Option (List Char)
  | [] => some []
  | c :: rest =>
    if c = '\\' then
      match rest with
      | [] => none
      | e :: rest' =>
        if e = 'u' then
          match rest' with
          | h1 :: h2 :: h3 :: h4 :: rest2 => do
              let v1 ← hexVal h1
              let v2 ← hexVal h2
              let v3 ← hexVal h3
              let v4 ← hexVal h4
              let s ← py_json_unescape rest2
              pure (Char.ofNat (v1 * 4096 + v2 * 256 + v3 * 16 + v4) :: s)
          | _ => none
        else do
          let c' ← unescapeShort e
          let s ← py_json_unescape rest'
          pure (c' :: s)
    else do
      let s ← py_json_unescape rest
      pure (c :: s)

/-- The MQTT play payload built by
`StreamManager._send_play_command_to_camera` (the SDP is not pre-escaped;
json.dumps does the escaping). -/
structure PlayMessage where
  requestId : List Char
  creationTimestamp : List Char
  sourceId : List Char
  sourceType : List Char
  streamId : List Char
  sdpOffer : List Char
  messageType : List Char
deriving Repr, DecidableEq

def build_play_message (rid ts cam sid : List Char) (sdp : List Char) : PlayMessage :=
  { requestId := rid, creationTimestamp := ts, sourceId := cam
    sourceType := "hive-cam".data, streamId := sid
    sdpOffer := sdp, messageType := "play".data }

/-- C4: for all port arguments (and all draws of the origin ids and of the
CNAME randomness) the built offer is byte-for-byte the specified line
sequence joined by CRLF with a trailing CRLF — v=0, origin and connection
lines with 0.0.0.0, the session name, t=0 0, the audio m-line
`m=audio p RTP/AVPF 96 0` with rtcp p+1, the opus and PCMU rtpmaps,
a=sendrecv, a=direction:active, the fixed audio SSRC 229236353, then the
video m-line with payload 103 H264/90000, the fmtp line, the four rtcp-fb
lines including goog-remb, a=sendonly, a=direction:active and the fixed
video SSRC 1607797317, both ssrc lines carrying the same CNAME
user{rand10}@host-{hex8}. -/
lemma escape_cons_crlf (t : List Char) :
    escape_sdp_for_json ('\r' :: '\n' :: t) = bsrn ++ escape_sdp_for_json t := by
  have hm : replaceMatcher crlf bsrn ('\r' :: '\n' :: t) = some (bsrn, 2) := by
    have hpre : crlf <+: ('\r' :: '\n' :: t) := ⟨t, rfl⟩
    simp [replaceMatcher, hpre, crlf]
  have h := scanSub_cons_some (replaceMatcher crlf bsrn) '\r' ('\n' :: t) bsrn 2 hm
  simpa [escape_sdp_for_json, strReplace] using h

lemma escape_cons_other (c : Char) (t : List Char) (h : ¬ crlf <+: (c :: t)) :
    escape_sdp_for_json (c :: t) = c :: escape_sdp_for_json t := by
  have hm : replaceMatcher crlf bsrn (c :: t) = none := by
    simp [replaceMatcher, h]
  exact scanSub_cons_none _ c t hm

lemma unescape_cons_bsrn (x : List Char) :
    unescape_sdp_from_json ('\\' :: 'r' :: '\\' :: 'n' :: x) =
      crlf ++ unescape_sdp_from_json x := by
  have hm : replaceMatcher bsrn crlf ('\\' :: 'r' :: '\\' :: 'n' :: x) = some (crlf, 4) := by
    have hpre : bsrn <+: ('\\' :: 'r' :: '\\' :: 'n' :: x) := ⟨x, rfl⟩
    simp [replaceMatcher, hpre, bsrn]
  have h := scanSub_cons_some (replaceMatcher bsrn crlf) '\\' ('r' :: '\\' :: 'n' :: x) crlf 4 hm
  simpa [unescape_sdp_from_json, strReplace] using h

lemma unescape_cons_other (c : Char) (x : List Char) (h : c ≠ '\\') :
    unescape_sdp_from_json (c :: x) = c :: unescape_sdp_from_json x := by
  have hm : replaceMatcher bsrn crlf (c :: x) = none := by
    have : ¬ bsrn <+: (c :: x) := by
      intro hcon
      rw [show bsrn = '\\' :: ['r', '\\', 'n'] from rfl, List.cons_prefix_cons] at hcon
      exact h hcon.1.symm
    simp [replaceMatcher, this]
  exact scanSub_cons_none _ c x hm

lemma unescape_escape_aux :
    ∀ n s, List.length s ≤ n → '\\' ∉ s →
      unescape_sdp_from_json (escape_sdp_for_json s) = s := by
  intro n
  induction n with
  | zero =>
    intro s h _
    have hs : s = [] := List.eq_nil_of_length_eq_zero (Nat.le_zero.mp h)
    subst hs
    rfl
  | succ n ih =>
    intro s h hb
    by_cases hp : crlf <+: s
    · rcases hp with ⟨t, ht⟩
      have hs : s = '\r' :: '\n' :: t := ht.symm
      subst hs
      rw [escape_cons_crlf t,
          show bsrn ++ escape_sdp_for_json t = '\\' :: 'r' :: '\\' :: 'n' :: escape_sdp_for_json t
            from rfl,
          unescape_cons_bsrn, ih t (by simp at h; omega) (by simp at hb; tauto)]
      rfl
    · cases s with
      | nil => rfl
      | cons c t =>
        have hc : c ≠ '\\' := by
          intro hcon
          exact hb (hcon ▸ List.mem_cons_self c t)
        rw [escape_cons_other c t hp, unescape_cons_other c _ hc,
            ih t (by simp at h; omega) (fun hcon => hb (List.mem_cons_of_mem c hcon))]

lemma hexVal_hexDigitChar : ∀ x, x < 16 → hexVal (hexDigitChar x) = some x := by
  decide

lemma unescape_step_plain (c : Char) (x : List Char) (hc : c ≠ '\\') :
    py_json_unescape (c :: x) = (py_json_unescape x).bind (fun s => some (c :: s)) := by
  conv_lhs => rw [py_json_unescape.eq_def]
  show (if c = '\\' then _ else _) = _
  rw [if_neg hc]
  rfl

lemma unescape_step_esc (e : Char) (he : e ≠ 'u') (x : List Char) :
    py_json_unescape ('\\' :: e :: x) =
      (unescapeShort e).bind
        (fun c' => (py_json_unescape x).bind (fun s => some (c' :: s))) := by
  conv_lhs => rw [py_json_unescape.eq_def]
  show (if ('\\' : Char) = '\\' then _ else _) = _
  rw [if_pos rfl]
  show (if e = 'u' then _ else _) = _
  rw [if_neg he]
  rfl

lemma unescape_step_hex (h1 h2 h3 h4 : Char) (x : List Char) :
    py_json_unescape ('\\' :: 'u' :: h1 :: h2 :: h3 :: h4 :: x) =
      (hexVal h1).bind (fun v1 => (hexVal h2).bind (fun v2 => (hexVal h3).bind (fun v3 =>
        (hexVal h4).bind (fun v4 => (py_json_unescape x).bind (fun s =>
          some (Char.ofNat (v1 * 4096 + v2 * 256 + v3 * 16 + v4) :: s)))))) := by
  conv_lhs => rw [py_json_unescape.eq_def]
  show (if ('\\' : Char) = '\\' then _ else _) = _
  rw [if_pos rfl]
  show (if ('u' : Char) = 'u' then _ else _) = _
  rw [if_pos rfl]
  rfl

lemma py_json_roundtrip_aux :
    ∀ s, (∀ c ∈ s, c.toNat < 0x10000) →
      py_json_unescape (py_json_escape s) = some s := by
  intro s
  induction s with
  | nil => intro _; rfl
  | cons c rest ih =>
    intro h
    have hrest : py_json_unescape (py_json_escape rest) = some rest :=
      ih (fun d hd => h d (List.mem_cons_of_mem c hd))
    show py_json_unescape (py_json_escape_char c ++ py_json_escape rest) = some (c :: rest)
    by_cases h1 : c = '\\'
    · subst h1
      show py_json_unescape ('\\' :: '\\' :: py_json_escape rest) = _
      rw [unescape_step_esc '\\' (by decide) _, hrest]
      rfl
    · by_cases h2 : c = '"'
      · subst h2
        show py_json_unescape ('\\' :: '"' :: py_json_escape rest) = _
        rw [unescape_step_esc '"' (by decide) _, hrest]
        rfl
      · by_cases h3 : c = '\x08'
        · subst h3
          show py_json_unescape ('\\' :: 'b' :: py_json_escape rest) = _
          rw [unescape_step_esc 'b' (by decide) _, hrest]
          rfl
        · by_cases h4 : c = '\x0c'
          · subst h4
            show py_json_unescape ('\\' :: 'f' :: py_json_escape rest) = _
            rw [unescape_step_esc 'f' (by decide) _, hrest]
            rfl
          · by_cases h5 : c = '\n'
            · subst h5
              show py_json_unescape ('\\' :: 'n' :: py_json_escape rest) = _
              rw [unescape_step_esc 'n' (by decide) _, hrest]
              rfl
            · by_cases h6 : c = '\r'
              · subst h6
                show py_json_unescape ('\\' :: 'r' :: py_json_escape rest) = _
                rw [unescape_step_esc 'r' (by decide) _, hrest]
                rfl
              · by_cases h7 : c = '\t'
                · subst h7
                  show py_json_unescape ('\\' :: 't' :: py_json_escape rest) = _
                  rw [unescape_step_esc 't' (by decide) _, hrest]
                  rfl
                · by_cases h8 : c.toNat < 0x20 ∨ 0x7f ≤ c.toNat
                  · have hch : py_json_escape_char c =
                        ['\\', 'u', hexDigitChar (c.toNat / 4096 % 16),
                         hexDigitChar (c.toNat / 256 % 16),
                         hexDigitChar (c.toNat / 16 % 16), hexDigitChar (c.toNat % 16)] := by
                      simp only [py_json_escape_char, if_neg h1, if_neg h2, if_neg h3,
                        if_neg h4, if_neg h5, if_neg h6, if_neg h7, if_pos h8]
                    rw [hch]
                    show py_json_unescape ('\\' :: 'u' :: hexDigitChar (c.toNat / 4096 % 16)
                        :: hexDigitChar (c.toNat / 256 % 16) :: hexDigitChar (c.toNat / 16 % 16)
                        :: hexDigitChar (c.toNat % 16) :: py_json_escape rest) = some (c :: rest)
                    rw [unescape_step_hex,
                        hexVal_hexDigitChar _ (Nat.mod_lt _ (by omega)),
                        hexVal_hexDigitChar _ (Nat.mod_lt _ (by omega)),
                        hexVal_hexDigitChar _ (Nat.mod_lt _ (by omega)),
                        hexVal_hexDigitChar _ (Nat.mod_lt _ (by omega)), hrest]
                    have harith : c.toNat / 4096 % 16 * 4096 + c.toNat / 256 % 16 * 256 +
                        c.toNat / 16 % 16 * 16 + c.toNat % 16 = c.toNat := by
                      have hc16 := h c (List.mem_cons_self c rest)
                      omega
                    simp only [Option.some_bind, harith, Char.ofNat_toNat]
                  · have hch : py_json_escape_char c = [c] := by
                      simp only [py_json_escape_char, if_neg h1, if_neg h2, if_neg h3,
                        if_neg h4, if_neg h5, if_neg h6, if_neg h7, if_neg h8]
                    rw [hch, List.singleton_append, unescape_step_plain c _ h1, hrest]
                    rfl

/-- C9: for SDP strings (no literal backslash text, characters in the BMP)
the escape helpers round-trip byte-for-byte, and the sdpOffer value of the
play payload survives the JSON envelope: the json.dumps string encoding
decodes back to the identical string, and `build_play_message` carries the
SDP unchanged (it is not pre-escaped). -/
theorem sdp_json_roundtrip (s : List Char) (hbs : '\\' ∉ s)
    (huni : ∀ c ∈ s, c.toNat < 0x10000) :
    unescape_sdp_from_json (escape_sdp_for_json s) = s
    ∧ py_json_unescape (py_json_escape s) = some s
    ∧ ∀ rid ts cam sid, (build_play_message rid ts cam sid s).sdpOffer = s :=
  ⟨unescape_escape_aux s.length s (le_refl _) hbs,
   py_json_roundtrip_aux s huni,
   fun _ _ _ _ => rfl⟩

/-! ## enhance_answer (SDPProcessor.enhance_answer) and its building blocks.

The regex substitutions of the source are modelled operation by operation:
`re.sub(r'(m=audio.*?)a=ssrc:(\d+)', ..., count=1, DOTALL)` replaces the
digit run of the first `a=ssrc:` found after the first `m=audio`
(`ssrcSub`); `re.sub(r'cname:[^\s\r\n]+', ...)` replaces every `cname:`
token and its following non-whitespace run (`cnameSub`); the IPv4 regex
`\d{1,3}\.\d{1,3}\.\d{1,3}\.\d{1,3}` is scanned left to right with the
backtracking semantics of `re` made deterministic: an inner octet matches
exactly a digit run of length 1..3 followed by a dot, the final octet
takes greedily up to three digits (`ipv4Sub`). -/

/-- First occurrence split: `some (a, b)` with `s = a ++ pat ++ b`. -/
def splitFirst (pat : List Char) : List Char → Option (List Char × List Char)
  | [] => if pat = [] then some ([], []) else none
  | c :: rest =>
    if pat <+: (c :: rest) then some ([], (c :: rest).drop pat.length)
    else
      match splitFirst pat rest with
      | some (x, y) => some (c :: x, y)
      | none => none

def ssrcPat : List Char := "a=ssrc:".data

/-- First `a=ssrc:` directly followed by at least one digit:
`some (x, d, y)` with `s = x ++ ssrcPat ++ d ++ y`, `d` the maximal digit
run. -/
def findSsrc : List Char → Option (List Char × List Char × List Char)
  | [] => none
  | c :: rest =>
    if ssrcPat <+: (c :: rest) ∧ ((c :: rest).drop 7).head?.any (fun d => d.isDigit) then
      some ([], ((c :: rest).drop 7).takeWhile (fun d => d.isDigit),
            ((c :: rest).drop 7).dropWhile (fun d => d.isDigit))
    else
      match findSsrc rest with
      | some (x, d, y) => some (c :: x, d, y)
      | none => none

/-- One ssrc substitution of enhance_answer step 2: after the first
occurrence of `media`, the digit run of the first `a=ssrc:` is replaced by
`newDigits`; no occurrence leaves the string unchanged. -/
def ssrcSub (media : List Char) (newDigits : List Char) (s : List Char) : List Char :=
  match splitFirst media s with
  | none => s
  | some (a, b) =>
    match findSsrc b with
    | none => s
    | some (x, _, y) => a ++ media ++ x ++ ssrcPat ++ newDigits ++ y

def cnamePat : List Char := "cname:".data

/-- ASCII whitespace of Python's regex class \s. -/
def isPySpace (c : Char) : Bool :=
  c = ' ' || c = '\t' || c = '\n' || c = '\r' || c = '\x0b' || c = '\x0c'

/-- Matcher of `re.sub(r'cname:[^\s\r\n]+', 'cname:<new>', ...)`. -/
def cnameMatcher (newCname : List Char) (s : List Char) : Option (List Char × Nat) :=
  if cnamePat <+: s then
    let run := (s.drop 6).takeWhile (fun c => !isPySpace c)
    if 1 ≤ run.length then some (cnamePat ++ newCname, 6 + run.length) else none
  else none

def cnameSub (newCname : List Char) (s : List Char) : List Char :=
  scanSub (cnameMatcher newCname) s

/-- Length of the leading digit run. -/
def digitRun (s : List Char) : Nat := (s.takeWhile (fun c => c.isDigit)).length

/-- One inner octet of the IPv4 regex: 1..3 digits then a dot.  With the
backtracking of `\d{1,3}\.` only the full digit run can be followed by the
dot, so the octet matches exactly when the run has length 1..3 and the
next character is a dot. -/
def octetDot (s : List Char) : Option Nat :=
  if 1 ≤ digitRun s ∧ digitRun s ≤ 3 ∧ (s.drop (digitRun s)).head? = some '.' then
    some (digitRun s + 1)
  else none

/-- The final octet: greedily up to three digits. -/
def lastOctet (s : List Char) : Option Nat :=
  if 1 ≤ digitRun s then some (min 3 (digitRun s)) else none

/-- IPv4 match at the head of `s`: the number of matched characters. -/
def ipv4MatchLen (s : List Char) : Option Nat := do
  let a ← octetDot s
  let b ← octetDot (s.drop a)
  let c ← octetDot (s.drop (a + b))
  let d ← lastOctet (s.drop (a + b + c))
  pure (a + b + c + d)

def ipv4Matcher (ext : List Char) (s : List Char) : Option (List Char × Nat) :=
  (ipv4MatchLen s).map (fun k => (ext, k))

/-- Step 4 of enhance_answer: every IPv4 literal replaced by the external
IP. -/
def ipv4Sub (ext : List Char) (s : List Char) : List Char := scanSub (ipv4Matcher ext) s

/-- The list of IPv4 literals a left-to-right regex scan finds in `s`. -/
def ipv4MatchesGo : Nat → List Char → List (List Char)
  | 0, _ => []
  | _, [] => []
  | fuel + 1, c :: rest =>
    match ipv4MatchLen (c :: rest) with
    | some k => (c :: rest).take k :: ipv4MatchesGo fuel (rest.drop (k - 1))
    | none => ipv4MatchesGo fuel rest

def ipv4_matches (s : List Char) : List (List Char) := ipv4MatchesGo s.length s

/-- str.split("\r\n"): every CRLF occurrence is a boundary (the pattern
cannot overlap itself).  Fuel keeps the recursion structural. -/
def splitCRLFGo : Nat → List Char → List (List Char)
  | 0, _ => [[]]
  | _, [] => [[]]
  | fuel + 1, c :: rest =>
    if c = '\r' ∧ rest.head? = some '\n' then
      [] :: splitCRLFGo fuel rest.tail
    else
      match splitCRLFGo fuel rest with
      | [] => [[c]]
      | l :: ls => (c :: l) :: ls

def splitCRLF (s : List Char) : List (List Char) := splitCRLFGo s.length s

/-- Step 5 of enhance_answer: walk the lines tracking the video section
and append `a=direction:passive` after `a=recvonly` inside it, once. -/
def insertDirLines : List (List Char) → Bool → Bool → List (List Char)
  | [], _, _ => []
  | ln :: rest, inVideo, added =>
    let inVideo' := if "m=video".data <+: ln then true
      else if "m=".data <+: ln then false else inVideo
    let added' := if "m=video".data <+: ln then false else added
    if inVideo' = true ∧ ln = "a=recvonly".data ∧ added' = false then
      ln :: "a=direction:passive".data :: insertDirLines rest inVideo' true
    else
      ln :: insertDirLines rest inVideo' added'

def insert_direction_passive (s : List Char) : List Char :=
  joinCRLF (insertDirLines (splitCRLF s) false false)

/-- Step 3 of enhance_answer: the three trailing x-skl attributes. -/
def xsklBlock (mi : SDPMediaInfo) : List Char :=
  "a=x-skl-ssrca:".data ++ natDigits mi.audio_ssrc ++ crlf ++
  "a=x-skl-ssrcv:".data ++ natDigits mi.video_ssrc ++ crlf ++
  "a=x-skl-cname:".data ++ mi.cname

/-- `SDPProcessor.enhance_answer`: replace the audio and video SSRCs,
replace every cname value, append the x-skl attributes, replace every IPv4
literal by the external IP, insert `a=direction:passive` after
`a=recvonly` in the video section. -/
def enhance_answer (sdp_answer : List Char) (external_ip : List Char)
    (mi : SDPMediaInfo) : List Char :=
  let e2a := ssrcSub "m=audio".data (natDigits mi.audio_ssrc) sdp_answer
  let e2b := ssrcSub "m=video".data (natDigits mi.video_ssrc) e2a
  let e2c := cnameSub mi.cname e2b
  let e3 := e2c ++ xsklBlock mi
  let e4 := ipv4Sub external_ip e3
  insert_direction_passive e4

/-- `SDPProcessor.validate_sdp_answer`: the seven substring checks. -/
structure SdpChecks where
  has_goog_remb : Bool
  has_x_skl_ssrca : Bool
  has_x_skl_ssrcv : Bool
  has_x_skl_cname : Bool
  has_audio_media : Bool
  has_video_media : Bool
  has_h264 : Bool
deriving Repr, DecidableEq

def validate_sdp_answer (s : List Char) : SdpChecks :=
  { has_goog_remb := decide ("goog-remb".data <:+: s)
    has_x_skl_ssrca := decide ("x-skl-ssrca:".data <:+: s)
    has_x_skl_ssrcv := decide ("x-skl-ssrcv:".data <:+: s)
    has_x_skl_cname := decide ("x-skl-cname:".data <:+: s)
    has_audio_media := decide ("m=audio".data <:+: s)
    has_video_media := decide ("m=video".data <:+: s)
    has_h264 := decide ("H264".data <:+: s) }

/-- `all(checks.values())` of the source. -/
def validate_all (ck : SdpChecks) : Bool :=
  ck.has_goog_remb && ck.has_x_skl_ssrca && ck.has_x_skl_ssrcv && ck.has_x_skl_cname &&
    ck.has_audio_media && ck.has_video_media && ck.has_h264

lemma infix_extend_right {α : Type} {t s u : List α} (h : t <:+: s) : t <:+: s ++ u := by
  rcases h with ⟨a, b, hab⟩
  exact ⟨a, b ++ u, by rw [← hab]; simp⟩

lemma infix_extend_left {α : Type} {t s u : List α} (h : t <:+: s) : t <:+: u ++ s := by
  rcases h with ⟨a, b, hab⟩
  exact ⟨u ++ a, b, by rw [← hab]; simp⟩

/-- Where an infix of an append can sit: in the left part, in the right
part, or straddling the seam. -/
lemma infix_append_cases {α : Type} {t l₁ l₂ : List α} (h : t <:+: l₁ ++ l₂) :
    t <:+: l₁ ∨ t <:+: l₂ ∨
      ∃ t₁ t₂, t = t₁ ++ t₂ ∧ t₁ ≠ [] ∧ t₂ ≠ [] ∧ t₁ <:+ l₁ ∧ t₂ <+: l₂ := by
  induction l₁ with
  | nil => right; left; simpa using h
  | cons x l₁ ih =>
    rw [List.cons_append] at h
    rcases List.infix_cons_iff.mp h with hpre | hinf
    · by_cases hlen : t.length ≤ (x :: l₁).length
      · left
        have hxl : (x :: l₁) <+: x :: (l₁ ++ l₂) := by
          rw [show x :: (l₁ ++ l₂) = (x :: l₁) ++ l₂ from rfl]
          exact List.prefix_append _ _
        exact (List.prefix_of_prefix_length_le hpre hxl hlen).isInfix
      · have hxt : (x :: l₁) <+: t := by
          have hxl : (x :: l₁) <+: x :: (l₁ ++ l₂) := by
            rw [show x :: (l₁ ++ l₂) = (x :: l₁) ++ l₂ from rfl]
            exact List.prefix_append _ _
          exact List.prefix_of_prefix_length_le hxl hpre (by omega)
        rcases hxt with ⟨t₂, ht⟩
        have ht₂ : t₂ <+: l₂ := by
          rcases hpre with ⟨r, hr⟩
          rw [← ht, show x :: (l₁ ++ l₂) = (x :: l₁) ++ l₂ from rfl,
              List.append_assoc] at hr
          exact ⟨r, List.append_cancel_left hr⟩
        cases t₂ with
        | nil =>
          left
          rw [← ht]
          simp
        | cons u us =>
          right; right
          exact ⟨x :: l₁, u :: us, ht.symm, by simp, by simp, List.suffix_rfl, ht₂⟩
    · rcases ih hinf with h1 | h2 | ⟨t₁, t₂, ht, hn1, hn2, hs1, hp2⟩
      · left; exact List.infix_cons h1
      · right; left; exact h2
      · right; right
        exact ⟨t₁, t₂, ht, hn1, hn2, hs1.trans (List.suffix_cons x l₁), hp2⟩

/-- Surgery preservation: a region D of class-C characters, sitting
directly after an occurrence of the marker P, is replaced by anything.  A
token T that starts with a character outside C and outside P, and that
does not contain P, cannot overlap the region, so it survives. -/
lemma surgery_preserve (C : Char → Prop) {X D D' Y T P : List Char}
    (hT : T <:+: X ++ (D ++ Y))
    (hP : P <:+ X) (hDC : ∀ c ∈ D, C c)
    {c₀ : Char} {T' : List Char} (hTc : T = c₀ :: T')
    (hhead : ¬ C c₀) (hcP : c₀ ∉ P)
    (hPT : ¬ P <:+: T) :
    T <:+: X ++ (D' ++ Y) := by
  rcases infix_append_cases hT with h1 | h2 | ⟨t₁, t₂, ht, hn1, _, hs1, _⟩
  · exact infix_extend_right h1
  · rcases infix_append_cases h2 with h3 | h4 | ⟨u₁, u₂, hu, hm1, _, hus, _⟩
    · exfalso
      exact hhead (hDC c₀ (h3.subset (hTc ▸ List.mem_cons_self c₀ T')))
    · exact infix_extend_left (infix_extend_left h4)
    · exfalso
      apply hhead
      apply hDC c₀
      apply hus.subset
      cases u₁ with
      | nil => exact absurd rfl hm1
      | cons v vs =>
        have : c₀ = v := by
          rw [hTc] at hu
          exact (List.cons.injEq _ _ _ _ ▸ hu).1
        rw [this]
        exact List.mem_cons_self v vs
  · by_cases hlen : P.length ≤ t₁.length
    · exfalso
      apply hPT
      have hPt₁ : P <:+ t₁ := List.suffix_of_suffix_length_le hP hs1 hlen
      have : t₁ <+: T := ht ▸ List.prefix_append t₁ t₂
      exact hPt₁.isInfix.trans this.isInfix
    · exfalso
      apply hcP
      have ht₁P : t₁ <:+ P := List.suffix_of_suffix_length_le hs1 hP (by omega)
      apply ht₁P.subset
      cases t₁ with
      | nil => exact absurd rfl hn1
      | cons v vs =>
        have : c₀ = v := by
          rw [hTc] at ht
          exact (List.cons.injEq _ _ _ _ ▸ ht).1
        rw [this]
        exact List.mem_cons_self v vs

lemma splitFirst_spec (pat : List Char) :
    ∀ s a b, splitFirst pat s = some (a, b) → s = a ++ pat ++ b := by
  intro s
  induction s with
  | nil =>
    intro a b h
    by_cases hp : pat = []
    · simp only [splitFirst, if_pos hp, Option.some.injEq, Prod.mk.injEq] at h
      rcases h with ⟨ha, hb⟩
      subst ha; subst hb
      simp [hp]
    · simp [splitFirst, hp] at h
  | cons c rest ih =>
    intro a b h
    rw [splitFirst] at h
    by_cases hp : pat <+: (c :: rest)
    · rw [if_pos hp] at h
      simp only [Option.some.injEq, Prod.mk.injEq] at h
      rcases h with ⟨ha, hb⟩
      subst ha
      subst hb
      rcases hp with ⟨r, hr⟩
      rw [← hr, List.drop_left, List.nil_append]
    · rw [if_neg hp] at h
      cases hfs : splitFirst pat rest with
      | none => rw [hfs] at h; simp at h
      | some xy =>
        rcases xy with ⟨x, y⟩
        rw [hfs] at h
        simp only [Option.some.injEq, Prod.mk.injEq] at h
        rcases h with ⟨ha, hb⟩
        subst ha
        subst hb
        have := ih x y hfs
        rw [show (c :: x) ++ pat ++ y = c :: (x ++ pat ++ y) by simp, ← this]

lemma findSsrc_spec :
    ∀ s x d y, findSsrc s = some (x, d, y) →
      s = x ++ ssrcPat ++ d ++ y ∧ d ≠ [] ∧ ∀ c ∈ d, c.isDigit := by
  intro s
  induction s with
  | nil => intro x d y h; simp [findSsrc] at h
  | cons c rest ih =>
    intro x d y h
    rw [findSsrc] at h
    by_cases hp : ssrcPat <+: (c :: rest) ∧ ((c :: rest).drop 7).head?.any (fun d => d.isDigit)
    · rw [if_pos hp] at h
      simp only [Option.some.injEq, Prod.mk.injEq] at h
      rcases h with ⟨hx, hd, hy⟩
      subst hx
      subst hd
      subst hy
      rcases hp with ⟨⟨r, hr⟩, hdig⟩
      have h7 : (c :: rest).drop 7 = r := by
        rw [← hr]
        exact List.drop_left' (by rfl)
      rw [h7] at hdig
      refine ⟨?_, ?_, ?_⟩
      · rw [List.nil_append, h7, List.append_assoc, List.takeWhile_append_dropWhile, hr]
      · rw [h7]
        cases r with
        | nil => simp at hdig
        | cons r0 rs =>
          simp only [List.head?_cons, Option.any_some] at hdig
          simp [List.takeWhile_cons, hdig]
      · intro ch hch
        exact List.mem_takeWhile_imp hch
    · rw [if_neg hp] at h
      cases hfs : findSsrc rest with
      | none => rw [hfs] at h; simp at h
      | some xdy =>
        rcases xdy with ⟨x', d', y'⟩
        rw [hfs] at h
        simp only [Option.some.injEq, Prod.mk.injEq] at h
        rcases h with ⟨hx, hd, hy⟩
        subst hx
        subst hd
        subst hy
        rcases ih x' d' y' hfs with ⟨h1, h2, h3⟩
        exact ⟨by rw [show (c :: x') ++ ssrcPat ++ d' ++ y' = c :: (x' ++ ssrcPat ++ d' ++ y')
                        by simp, ← h1], h2, h3⟩

/-- A token starting with a non-digit character outside `a=ssrc:` and not
containing `a=ssrc:` survives an ssrc substitution. -/
lemma ssrcSub_preserves (media newDigits : List Char) (T : List Char)
    {c₀ : Char} {T' : List Char} (hTc : T = c₀ :: T')
    (hhead : ¬ c₀.isDigit = true) (hcP : c₀ ∉ ssrcPat)
    (hPT : ¬ ssrcPat <:+: T) (s : List Char)
    (hT : T <:+: s) : T <:+: ssrcSub media newDigits s := by
  cases h1 : splitFirst media s with
  | none => simp only [ssrcSub, h1]; exact hT
  | some ab =>
    rcases ab with ⟨a, b⟩
    cases h2 : findSsrc b with
    | none => simp only [ssrcSub, h1, h2]; exact hT
    | some xdy =>
      rcases xdy with ⟨x, d, y⟩
      simp only [ssrcSub, h1, h2]
      have hs := splitFirst_spec media s a b h1
      rcases findSsrc_spec b x d y h2 with ⟨hb, hdne, hdig⟩
      have hseq : s = (a ++ media ++ x ++ ssrcPat) ++ (d ++ y) := by
        rw [hs, hb]; simp
      have hres : a ++ media ++ x ++ ssrcPat ++ newDigits ++ y =
          (a ++ media ++ x ++ ssrcPat) ++ (newDigits ++ y) := by simp
      rw [hres]
      rw [hseq] at hT
      exact surgery_preserve (fun c => c.isDigit = true) hT
        (List.suffix_append _ _) hdig hTc hhead hcP hPT

/-- Along a stretch of the string on which the matcher never fires (all
nonempty suffixes of T₂, whatever follows), scanSub copies verbatim. -/
lemma scanSub_copy (m : List Char → Option (List Char × Nat)) (T : List Char)
    (hB : ∀ T₂ b, T₂ ≠ [] → T₂ <:+ T → m (T₂ ++ b) = none) :
    ∀ T₂ b, T₂ <:+ T → scanSub m (T₂ ++ b) = T₂ ++ scanSub m b := by
  intro T₂
  induction T₂ with
  | nil => intro b _; rfl
  | cons c T₂ ih =>
    intro b hsuf
    have hm : m ((c :: T₂) ++ b) = none := hB (c :: T₂) b (by simp) hsuf
    rw [List.cons_append] at hm ⊢
    rw [scanSub_cons_none m c (T₂ ++ b) hm,
        ih b ((List.suffix_cons c T₂).trans hsuf)]
    rfl

lemma scanSub_preserves_aux (m : List Char → Option (List Char × Nat)) (C : Char → Prop)
    {T : List Char} {c₀ : Char} {T' : List Char} (hTc : T = c₀ :: T')
    (hm1 : ∀ s r k, m s = some (r, k) → 1 ≤ k ∧ ∀ c ∈ s.take k, C c)
    (hhead : ¬ C c₀)
    (hB : ∀ T₂ b, T₂ ≠ [] → T₂ <:+ T → m (T₂ ++ b) = none) :
    ∀ n s, s.length ≤ n → T <:+: s → T <:+: scanSub m s := by
  intro n
  induction n with
  | zero =>
    intro s hlen hT
    have hs : s = [] := List.eq_nil_of_length_eq_zero (Nat.le_zero.mp hlen)
    subst hs
    rw [List.eq_nil_of_infix_nil hT] at hTc
    simp at hTc
  | succ n ih =>
    intro s hlen hT
    cases s with
    | nil =>
      rw [List.eq_nil_of_infix_nil hT] at hTc
      simp at hTc
    | cons c rest =>
      simp only [List.length_cons, Nat.succ_le_succ_iff] at hlen
      cases hm : m (c :: rest) with
      | some rk =>
        rcases rk with ⟨r, k⟩
        rcases hm1 (c :: rest) r k hm with ⟨hk1, hkC⟩
        rw [scanSub_cons_some m c rest r k hm]
        rcases hT with ⟨a, b, hab⟩
        by_cases hka : k ≤ a.length
        · have hdropped : (c :: rest).drop k = a.drop k ++ (T ++ b) := by
            rw [← hab, List.append_assoc, List.drop_append_of_le_length hka]
          have hTd : T <:+: (c :: rest).drop k :=
            ⟨a.drop k, b, by rw [hdropped]; simp⟩
          have hkk : (c :: rest).drop k = rest.drop (k - 1) := by
            rcases k with _ | k
            · omega
            · simp
          rw [hkk] at hTd
          have hlen2 : (rest.drop (k - 1)).length ≤ n := by
            have := List.length_drop (k - 1) rest
            omega
          exact infix_extend_left (ih (rest.drop (k - 1)) hlen2 hTd)
        · exfalso
          apply hhead
          apply hkC c₀
          have htake : (c :: rest).take k = a ++ (T ++ b).take (k - a.length) := by
            rw [← hab, List.append_assoc, List.take_append_eq_append_take,
                List.take_of_length_le (by omega)]
          rw [htake]
          apply List.mem_append_right
          rw [hTc, List.cons_append]
          rcases hka' : k - a.length with _ | j
          · omega
          · simp
      | none =>
        rw [scanSub_cons_none m c rest hm]
        rcases hT with ⟨a, b, hab⟩
        cases a with
        | nil =>
          simp only [List.nil_append] at hab
          rw [hTc, List.cons_append] at hab
          have hc : c₀ = c := (List.cons.injEq _ _ _ _ ▸ hab).1
          have hrest : T' ++ b = rest := (List.cons.injEq _ _ _ _ ▸ hab).2
          rw [← hrest, scanSub_copy m T hB T' b
                (hTc ▸ List.suffix_cons c₀ T')]
          exact ⟨[], scanSub m b, by rw [hTc, hc]; simp⟩
        | cons a₀ a' =>
          rw [List.cons_append, List.cons_append] at hab
          have hrest : a' ++ T ++ b = rest := (List.cons.injEq _ _ _ _ ▸ hab).2
          have hTr : T <:+: rest := ⟨a', b, hrest⟩
          exact List.infix_cons (ih rest hlen hTr)

/-- A token T whose head character can never be part of a match and on
which the matcher never fires survives a scan-substitution. -/
lemma scanSub_preserves (m : List Char → Option (List Char × Nat)) (C : Char → Prop)
    {T : List Char} {c₀ : Char} {T' : List Char} (hTc : T = c₀ :: T')
    (hm1 : ∀ s r k, m s = some (r, k) → 1 ≤ k ∧ ∀ c ∈ s.take k, C c)
    (hhead : ¬ C c₀)
    (hB : ∀ T₂ b, T₂ ≠ [] → T₂ <:+ T → m (T₂ ++ b) = none)
    (s : List Char) (hT : T <:+: s) : T <:+: scanSub m s :=
  scanSub_preserves_aux m C hTc hm1 hhead hB s.length s (le_refl _) hT

lemma take_digitRun (s : List Char) :
    s.take (digitRun s) = s.takeWhile (fun c => c.isDigit) :=
  (List.prefix_iff_eq_take.mp (List.takeWhile_prefix _)).symm

lemma take_chunk {P : Char → Prop} {s : List Char} {a b : Nat}
    (h1 : ∀ c ∈ s.take a, P c) (h2 : ∀ c ∈ (s.drop a).take b, P c) :
    ∀ c ∈ s.take (a + b), P c := by
  intro c hc
  rw [List.take_add] at hc
  rcases List.mem_append.mp hc with h | h
  exacts [h1 c h, h2 c h]

lemma cnameMatcher_hm1 (newCname : List Char) :
    ∀ s r k, cnameMatcher newCname s = some (r, k) →
      1 ≤ k ∧ ∀ c ∈ s.take k, (c ∈ cnamePat ∨ isPySpace c = false) := by
  intro s r k h
  simp only [cnameMatcher] at h
  by_cases hp : cnamePat <+: s
  · rw [if_pos hp] at h
    by_cases h1 : 1 ≤ ((s.drop 6).takeWhile (fun c => !isPySpace c)).length
    · rw [if_pos h1] at h
      simp only [Option.some.injEq, Prod.mk.injEq] at h
      rcases h with ⟨_, hk⟩
      subst hk
      refine ⟨by omega, ?_⟩
      have h6 : s.take 6 = cnamePat := by
        have := List.prefix_iff_eq_take.mp hp
        rw [show cnamePat.length = 6 by decide] at this
        exact this.symm
      have hrun : (s.drop 6).take ((s.drop 6).takeWhile (fun c => !isPySpace c)).length =
          (s.drop 6).takeWhile (fun c => !isPySpace c) :=
        (List.prefix_iff_eq_take.mp (List.takeWhile_prefix _)).symm
      apply take_chunk
      · intro c hc
        rw [h6] at hc
        exact Or.inl hc
      · intro c hc
        rw [hrun] at hc
        have := List.mem_takeWhile_imp hc
        exact Or.inr (by simpa using this)
    · rw [if_neg h1] at h
      simp at h
  · rw [if_neg hp] at h
    simp at h

lemma octetDot_spec {s : List Char} {a : Nat} (h : octetDot s = some a) :
    2 ≤ a ∧ (∀ c ∈ s.take a, (c.isDigit = true ∨ c = '.')) ∧ '.' ∈ s.take a := by
  rw [octetDot] at h
  by_cases hc : 1 ≤ digitRun s ∧ digitRun s ≤ 3 ∧ (s.drop (digitRun s)).head? = some '.'
  · rw [if_pos hc] at h
    simp only [Option.some.injEq] at h
    subst h
    rcases hc with ⟨hc1, _, hc3⟩
    have hone : (s.drop (digitRun s)).take 1 = ['.'] := by
      cases hd : s.drop (digitRun s) with
      | nil => rw [hd] at hc3; simp at hc3
      | cons x xs =>
        rw [hd] at hc3
        simp only [List.head?_cons, Option.some.injEq] at hc3
        subst hc3
        rfl
    have hdig : ∀ c ∈ s.take (digitRun s), c.isDigit = true ∨ c = '.' := by
      intro c hcm
      rw [take_digitRun] at hcm
      exact Or.inl (List.mem_takeWhile_imp hcm)
    refine ⟨by omega, ?_, ?_⟩
    · apply take_chunk hdig
      intro c hcm
      rw [hone] at hcm
      simp only [List.mem_singleton] at hcm
      exact Or.inr hcm
    · rw [List.take_add, hone]
      exact List.mem_append_right _ (by simp)
  · rw [if_neg hc] at h
    simp at h

lemma lastOctet_spec {s : List Char} {d : Nat} (h : lastOctet s = some d) :
    1 ≤ d ∧ ∀ c ∈ s.take d, (c.isDigit = true ∨ c = '.') := by
  rw [lastOctet] at h
  by_cases hc : 1 ≤ digitRun s
  · rw [if_pos hc] at h
    simp only [Option.some.injEq] at h
    subst h
    refine ⟨by omega, ?_⟩
    intro c hcm
    have hdd : min 3 (digitRun s) ≤ digitRun s := Nat.min_le_right _ _
    have htk : s.take (min 3 (digitRun s)) = (s.take (digitRun s)).take (min 3 (digitRun s)) := by
      rw [List.take_take]
      congr 1
      omega
    rw [htk] at hcm
    have : c ∈ s.take (digitRun s) := List.take_subset _ _ hcm
    rw [take_digitRun] at this
    exact Or.inl (List.mem_takeWhile_imp this)
  · rw [if_neg hc] at h
    simp at h

lemma ipv4MatchLen_spec {s : List Char} {k : Nat} (h : ipv4MatchLen s = some k) :
    1 ≤ k ∧ ∀ c ∈ s.take k, (c.isDigit = true ∨ c = '.') := by
  simp only [ipv4MatchLen, bind, Option.bind_eq_some, Option.pure_def,
    Option.some.injEq] at h
  rcases h with ⟨a, ha, b, hb, c', hc', d, hd, hk⟩
  subst hk
  rcases octetDot_spec ha with ⟨ha1, ha2, _⟩
  rcases octetDot_spec hb with ⟨hb1, hb2, _⟩
  rcases octetDot_spec hc' with ⟨hc1, hc2, _⟩
  rcases lastOctet_spec hd with ⟨hd1, hd2⟩
  refine ⟨by omega, ?_⟩
  exact take_chunk (take_chunk (take_chunk ha2 hb2) hc2) hd2

lemma ipv4Matcher_hm1 (ext : List Char) :
    ∀ s r k, ipv4Matcher ext s = some (r, k) →
      1 ≤ k ∧ ∀ c ∈ s.take k, (c.isDigit = true ∨ c = '.') := by
  intro s r k h
  rw [ipv4Matcher] at h
  rcases Option.map_eq_some'.mp h with ⟨k', hk', heq⟩
  simp only [Prod.mk.injEq] at heq
  rcases heq with ⟨_, hkk⟩
  subst hkk
  exact ipv4MatchLen_spec hk'

lemma cname_hB {T : List Char}
    (hPT : ¬ cnamePat <:+: T)
    (hcross : ∀ i, i < T.length → ¬(T.drop i <+: cnamePat)) (newCname : List Char) :
    ∀ T₂ b, T₂ ≠ [] → T₂ <:+ T → cnameMatcher newCname (T₂ ++ b) = none := by
  intro T₂ b hne hsuf
  rw [cnameMatcher, if_neg]
  intro hpre
  by_cases hlen : cnamePat.length ≤ T₂.length
  · have h2 : cnamePat <+: T₂ :=
      List.prefix_of_prefix_length_le hpre (List.prefix_append _ _) hlen
    exact hPT (h2.isInfix.trans hsuf.isInfix)
  · have h2 : T₂ <+: cnamePat :=
      List.prefix_of_prefix_length_le (List.prefix_append _ _) hpre (by omega)
    have hi : T₂ = T.drop (T.length - T₂.length) := List.suffix_iff_eq_drop.mp hsuf
    have hlt : T.length - T₂.length < T.length := by
      have h1 : T₂.length ≤ T.length := hsuf.length_le
      have h0 : 1 ≤ T₂.length := List.length_pos.mpr hne
      omega
    exact hcross (T.length - T₂.length) hlt (hi ▸ h2)

lemma ipv4_hB {T : List Char} (hne1 : T ≠ []) (hdot : '.' ∉ T)
    (hlast : ¬((T.getLastD ' ').isDigit = true ∨ T.getLastD ' ' = '.'))
    (ext : List Char) :
    ∀ T₂ b, T₂ ≠ [] → T₂ <:+ T → ipv4Matcher ext (T₂ ++ b) = none := by
  intro T₂ b hne hsuf
  rw [ipv4Matcher]
  suffices h : ipv4MatchLen (T₂ ++ b) = none by rw [h]; rfl
  cases ho : octetDot (T₂ ++ b) with
  | none => simp [ipv4MatchLen, bind, ho]
  | some a =>
    exfalso
    rcases octetDot_spec ho with ⟨_, hall, hdotm⟩
    by_cases hla : a ≤ T₂.length
    · apply hdot
      apply hsuf.subset
      apply List.take_subset a T₂
      rw [← List.take_append_of_le_length hla]
      exact hdotm
    · apply hlast
      have htk : (T₂ ++ b).take a = T₂ ++ b.take (a - T₂.length) := by
        rw [List.take_append_eq_append_take, List.take_of_length_le (by omega)]
      have hmem : T₂.getLast hne ∈ (T₂ ++ b).take a := by
        rw [htk]
        exact List.mem_append_left _ (List.getLast_mem hne)
      have hTlast : T₂.getLast hne = T.getLast hne1 := List.IsSuffix.getLast hsuf hne
      have hD : T.getLastD ' ' = T.getLast hne1 := by
        rw [List.getLastD_eq_getLast?, List.getLast?_eq_getLast T hne1]
        rfl
      rw [hD, ← hTlast]
      exact hall _ hmem

lemma splitCRLFGo_fuel :
    ∀ f f' s, s.length ≤ f → s.length ≤ f' → splitCRLFGo f s = splitCRLFGo f' s := by
  intro f
  induction f with
  | zero =>
    intro f' s h _
    have hs : s = [] := List.eq_nil_of_length_eq_zero (Nat.le_zero.mp h)
    subst hs
    cases f' <;> rfl
  | succ f ih =>
    intro f' s h h'
    cases s with
    | nil => cases f' <;> rfl
    | cons c rest =>
      cases f' with
      | zero => simp at h'
      | succ f'' =>
        simp only [List.length_cons, Nat.succ_le_succ_iff] at h h'
        show (if c = '\r' ∧ rest.head? = some '\n' then [] :: splitCRLFGo f rest.tail
              else match splitCRLFGo f rest with
                   | [] => [[c]]
                   | l :: ls => (c :: l) :: ls) =
             (if c = '\r' ∧ rest.head? = some '\n' then [] :: splitCRLFGo f'' rest.tail
              else match splitCRLFGo f'' rest with
                   | [] => [[c]]
                   | l :: ls => (c :: l) :: ls)
        by_cases hc : c = '\r' ∧ rest.head? = some '\n'
        · rw [if_pos hc, if_pos hc,
              ih f'' rest.tail (by rw [List.length_tail]; omega)
                (by rw [List.length_tail]; omega)]
        · rw [if_neg hc, if_neg hc, ih f'' rest h h']

lemma splitCRLFGo_ne_nil : ∀ f s, splitCRLFGo f s ≠ [] := by
  intro f
  induction f with
  | zero => intro s; simp [splitCRLFGo]
  | succ f ih =>
    intro s
    cases s with
    | nil => simp [splitCRLFGo]
    | cons c rest =>
      show (if c = '\r' ∧ rest.head? = some '\n' then [] :: splitCRLFGo f rest.tail
            else match splitCRLFGo f rest with
                 | [] => [[c]]
                 | l :: ls => (c :: l) :: ls) ≠ []
      by_cases hc : c = '\r' ∧ rest.head? = some '\n'
      · rw [if_pos hc]; simp
      · rw [if_neg hc]
        cases h : splitCRLFGo f rest with
        | nil => simp
        | cons l ls => simp

lemma splitCRLF_ne_nil (s : List Char) : splitCRLF s ≠ [] := splitCRLFGo_ne_nil _ _

lemma splitCRLF_crlf (rest : List Char) :
    splitCRLF ('\r' :: '\n' :: rest) = [] :: splitCRLF rest := by
  show splitCRLFGo (rest.length + 2) ('\r' :: '\n' :: rest) = _
  show (if '\r' = '\r' ∧ ('\n' :: rest).head? = some '\n' then
          [] :: splitCRLFGo (rest.length + 1) ('\n' :: rest).tail
        else match splitCRLFGo (rest.length + 1) ('\n' :: rest) with
             | [] => [['\r']]
             | l :: ls => ('\r' :: l) :: ls) = _
  rw [if_pos ⟨rfl, rfl⟩]
  show [] :: splitCRLFGo (rest.length + 1) rest = [] :: splitCRLFGo rest.length rest
  rw [splitCRLFGo_fuel (rest.length + 1) rest.length rest (by omega) (le_refl _)]

lemma splitCRLF_cons (c : Char) (rest : List Char)
    (h : ¬(c = '\r' ∧ rest.head? = some '\n')) :
    splitCRLF (c :: rest) =
      match splitCRLF rest with
      | [] => [[c]]
      | l :: ls => (c :: l) :: ls := by
  show splitCRLFGo (rest.length + 1) (c :: rest) = _
  show (if c = '\r' ∧ rest.head? = some '\n' then
          [] :: splitCRLFGo rest.length rest.tail
        else match splitCRLFGo rest.length rest with
             | [] => [[c]]
             | l :: ls => (c :: l) :: ls) = _
  rw [if_neg h]
  rfl

lemma splitCRLF_cons_eq (c : Char) (rest l : List Char) (ls : List (List Char))
    (h : ¬(c = '\r' ∧ rest.head? = some '\n')) (hs : splitCRLF rest = l :: ls) :
    splitCRLF (c :: rest) = (c :: l) :: ls := by
  rw [splitCRLF_cons c rest h, hs]

lemma splitCRLF_head_prefix :
    ∀ s u, u <+: s → '\r' ∉ u → '\n' ∉ u →
      ∃ l ls, splitCRLF s = l :: ls ∧ u <+: l := by
  intro s
  induction s with
  | nil =>
    intro u hu _ _
    have h0 : u = [] := List.prefix_nil.mp hu
    subst h0
    exact ⟨[], [], rfl, List.prefix_rfl⟩
  | cons c rest ih =>
    intro u hu hr hn
    by_cases hc : c = '\r' ∧ rest.head? = some '\n'
    · rcases hc with ⟨hc1, hc2⟩
      subst hc1
      cases rest with
      | nil => simp at hc2
      | cons d rest' =>
        simp only [List.head?_cons, Option.some.injEq] at hc2
        subst hc2
        have hu0 : u = [] := by
          cases u with
          | nil => rfl
          | cons x xs =>
            exfalso
            apply hr
            have hx : x = '\r' := (List.cons_prefix_cons.mp hu).1
            rw [hx]
            exact List.mem_cons_self '\r' xs
        subst hu0
        exact ⟨[], splitCRLF rest', splitCRLF_crlf rest', List.prefix_rfl⟩
    · cases u with
      | nil =>
        cases hsp : splitCRLF rest with
        | nil => exact absurd hsp (splitCRLF_ne_nil rest)
        | cons l ls =>
          exact ⟨c :: l, ls, splitCRLF_cons_eq c rest l ls hc hsp, by simp⟩
      | cons x xs =>
        have hx : x = c := (List.cons_prefix_cons.mp hu).1
        have hxs : xs <+: rest := (List.cons_prefix_cons.mp hu).2
        rcases ih xs hxs (fun h => hr (List.mem_cons_of_mem _ h))
          (fun h => hn (List.mem_cons_of_mem _ h)) with ⟨l, ls, hsp, hpl⟩
        refine ⟨c :: l, ls, splitCRLF_cons_eq c rest l ls hc hsp, ?_⟩
        rw [hx]
        exact List.cons_prefix_cons.mpr ⟨rfl, hpl⟩

lemma splitCRLF_infix_aux :
    ∀ n s, s.length ≤ n → ∀ u, u <:+: s → '\r' ∉ u → '\n' ∉ u →
      ∃ ln ∈ splitCRLF s, u <:+: ln := by
  intro n
  induction n with
  | zero =>
    intro s hlen u hu _ _
    have hs : s = [] := List.eq_nil_of_length_eq_zero (Nat.le_zero.mp hlen)
    subst hs
    have h0 : u = [] := List.eq_nil_of_infix_nil hu
    subst h0
    exact ⟨[], by simp [splitCRLF, splitCRLFGo], List.infix_rfl⟩
  | succ n ih =>
    intro s hlen u hu hr hn
    cases s with
    | nil =>
      have h0 : u = [] := List.eq_nil_of_infix_nil hu
      subst h0
      exact ⟨[], by simp [splitCRLF, splitCRLFGo], List.infix_rfl⟩
    | cons c rest =>
      simp only [List.length_cons, Nat.succ_le_succ_iff] at hlen
      by_cases hc : c = '\r' ∧ rest.head? = some '\n'
      · rcases hc with ⟨hc1, hc2⟩
        subst hc1
        cases rest with
        | nil => simp at hc2
        | cons d rest' =>
          simp only [List.head?_cons, Option.some.injEq] at hc2
          subst hc2
          rw [splitCRLF_crlf rest']
          cases u with
          | nil => exact ⟨[], by simp, List.infix_rfl⟩
          | cons x xs =>
            have hu1 : (x :: xs) <:+: '\n' :: rest' := by
              rcases List.infix_cons_iff.mp hu with hp | hi
              · exfalso
                apply hr
                rw [(List.cons_prefix_cons.mp hp).1]
                exact List.mem_cons_self _ _
              · exact hi
            have hu2 : (x :: xs) <:+: rest' := by
              rcases List.infix_cons_iff.mp hu1 with hp | hi
              · exfalso
                apply hn
                rw [(List.cons_prefix_cons.mp hp).1]
                exact List.mem_cons_self _ _
              · exact hi
            have hlen' : rest'.length ≤ n := by
              simp only [List.length_cons] at hlen
              omega
            rcases ih rest' hlen' (x :: xs) hu2 hr hn with ⟨ln, hmem, hinf⟩
            exact ⟨ln, List.mem_cons_of_mem _ hmem, hinf⟩
      · rcases List.infix_cons_iff.mp hu with hp | hi
        · rcases splitCRLF_head_prefix (c :: rest) u hp hr hn with ⟨l, ls, hsp, hpl⟩
          exact ⟨l, by rw [hsp]; exact List.mem_cons_self l ls, hpl.isInfix⟩
        · rcases ih rest hlen u hi hr hn with ⟨ln, hmem, hinf⟩
          cases hsp : splitCRLF rest with
          | nil => exact absurd hsp (splitCRLF_ne_nil rest)
          | cons l ls =>
            rw [splitCRLF_cons_eq c rest l ls hc hsp]
            rw [hsp] at hmem
            rcases List.mem_cons.mp hmem with h1 | h2
            · subst h1
              exact ⟨c :: ln, List.mem_cons_self _ _, infix_extend_left (u := [c]) hinf⟩
            · exact ⟨ln, List.mem_cons_of_mem _ h2, hinf⟩

lemma splitCRLF_infix {s u : List Char} (hu : u <:+: s) (hr : '\r' ∉ u) (hn : '\n' ∉ u) :
    ∃ ln ∈ splitCRLF s, u <:+: ln :=
  splitCRLF_infix_aux s.length s (le_refl _) u hu hr hn

lemma insertDirLines_mem :
    ∀ lns (iv ad : Bool) (ln : List Char), ln ∈ lns → ln ∈ insertDirLines lns iv ad := by
  intro lns
  induction lns with
  | nil => intro iv ad ln h; simp at h
  | cons l rest ih =>
    intro iv ad ln h
    rcases List.mem_cons.mp h with h1 | h2
    · subst h1
      simp only [insertDirLines]
      repeat' split
      all_goals exact List.mem_cons_self _ _
    · simp only [insertDirLines]
      repeat' split
      all_goals first
        | exact List.mem_cons_of_mem _ (List.mem_cons_of_mem _ (ih _ _ _ h2))
        | exact List.mem_cons_of_mem _ (ih _ _ _ h2)

lemma mem_joinCRLF : ∀ lns (ln : List Char), ln ∈ lns → ln <:+: joinCRLF lns := by
  intro lns
  induction lns with
  | nil => intro ln h; simp at h
  | cons l rest ih =>
    intro ln h
    cases rest with
    | nil =>
      rcases List.mem_cons.mp h with h1 | h2
      · subst h1; exact List.infix_rfl
      · simp at h2
    | cons l₂ ls =>
      have hj : joinCRLF (l :: l₂ :: ls) = l ++ crlf ++ joinCRLF (l₂ :: ls) := rfl
      rw [hj]
      rcases List.mem_cons.mp h with h1 | h2
      · subst h1
        exact ⟨[], crlf ++ joinCRLF (l₂ :: ls), by simp⟩
      · rw [List.append_assoc]
        exact infix_extend_left (infix_extend_left (ih ln h2))

lemma insert_direction_passive_preserves {s u : List Char}
    (hr : '\r' ∉ u) (hn : '\n' ∉ u) (hu : u <:+: s) :
    u <:+: insert_direction_passive s := by
  rcases splitCRLF_infix hu hr hn with ⟨ln, hmem, hinf⟩
  exact hinf.trans (mem_joinCRLF _ ln (insertDirLines_mem _ false false ln hmem))

/-- C9 witness at a concrete CRLF-terminated SDP fragment. -/
theorem sdp_json_roundtrip_witness :
    unescape_sdp_from_json (escape_sdp_for_json "v=0\r\nm=audio 9 RTP/AVPF 96 0\r\n".data) =
      "v=0\r\nm=audio 9 RTP/AVPF 96 0\r\n".data
    ∧ py_json_unescape (py_json_escape "v=0\r\nm=audio 9 RTP/AVPF 96 0\r\n".data) =
      some "v=0\r\nm=audio 9 RTP/AVPF 96 0\r\n".data := by
  have h := sdp_json_roundtrip "v=0\r\nm=audio 9 RTP/AVPF 96 0\r\n".data
    (by decide) (by decide)
  exact ⟨h.1, h.2.1⟩

/-- C4: for all port and randomness arguments, build_custom_sdp_offer
returns byte-for-byte the specified CRLF-joined line sequence with a
trailing CRLF - v=0, origin and connection on 0.0.0.0, s=Camera
Livestream, t=0 0, the audio m-line `m=audio {audio_port} RTP/AVPF 96 0`
with a=rtcp:{audio_port+1}, the opus/48000/2 and PCMU/8000 rtpmaps,
a=sendrecv, a=direction:active and fixed audio SSRC 229236353, then the
video m-line with payload 103 H264/90000, the fmtp line, the four rtcp-fb
lines including goog-remb, a=sendonly, a=direction:active and fixed video
SSRC 1607797317 - with both ssrc lines carrying the same
user{rand10}@host-{hex8} cname, which is also the cname of the returned
media info. -/
theorem build_custom_sdp_offer_exact
    (audio_port video_port rtcp_port sid sver user_id : Nat) (host_id : List Char) :
    (build_custom_sdp_offer audio_port video_port rtcp_port sid sver user_id host_id).1 =
      "v=0\r\no=- ".data ++ natDigits sid ++ " ".data ++ natDigits sver
        ++ " IN IP4 0.0.0.0\r\ns=Camera Livestream\r\nc=IN IP4 0.0.0.0\r\nt=0 0\r\nm=audio ".data
        ++ natDigits audio_port ++ " RTP/AVPF 96 0\r\na=rtcp:".data
        ++ natDigits (audio_port + 1)
        ++ "\r\na=rtpmap:96 opus/48000/2\r\na=rtpmap:0 PCMU/8000\r\na=sendrecv\r\na=direction:active\r\na=ssrc:229236353 cname:user".data
        ++ natDigits user_id ++ "@host-".data ++ host_id
        ++ "\r\nm=video ".data ++ natDigits video_port ++ " RTP/AVPF 103\r\na=rtcp:".data
        ++ natDigits (video_port + 1)
        ++ "\r\na=rtpmap:103 H264/90000\r\na=fmtp:103 level-asymmetry-allowed=1;packetization-mode=1;profile-level-id=42e01f\r\na=rtcp-fb:103 nack\r\na=rtcp-fb:103 nack pli\r\na=rtcp-fb:103 goog-remb\r\na=rtcp-fb:103 ccm fir\r\na=sendonly\r\na=direction:active\r\na=ssrc:1607797317 cname:user".data
        ++ natDigits user_id ++ "@host-".data ++ host_id ++ "\r\n".data
    ∧ (build_custom_sdp_offer audio_port video_port rtcp_port sid sver user_id host_id).2 =
      { audio_ssrc := 229236353, video_ssrc := 1607797317
        cname := "user".data ++ natDigits user_id ++ "@host-".data ++ host_id
        audio_port := audio_port, video_port := video_port, rtcp_port := rtcp_port } := by
  constructor
  · show joinCRLF _ ++ crlf = _
    simp only [joinCRLF, crlf, generate_media_info, List.append_assoc]
    rfl
  · rfl

def sdpAnswerSample : List Char :=
  ("v=0\r\no=- 3816 3816 IN IP4 192.168.1.5\r\ns=Kurento Media Server\r\nc=IN IP4 192.168.1.5\r\nt=0 0\r\nm=audio 30000 RTP/AVPF 96 0\r\na=rtcp:30001\r\na=sendrecv\r\na=rtpmap:96 opus/48000/2\r\na=ssrc:111111 cname:user111@host\r\nm=video 30002 RTP/AVPF 103\r\na=rtpmap:103 H264/90000\r\na=rtcp-fb:103 goog-remb\r\na=recvonly\r\na=ssrc:222222 cname:user111@host\r\n").data

def extSample : List Char := "203.0.113.5".data

def miSample : SDPMediaInfo :=
  { audio_ssrc := 229236353, video_ssrc := 1607797317
    cname := "user1234567890@host-abcd1234".data
    audio_port := 30000, video_port := 30002, rtcp_port := 30001 }

def cexAnswer : List Char :=
  "m=audio\r\nm=video\r\na=rtcp-fb:103 goog-remb\r\ncname:H264\r\n1.2.3.4567\r\n".data

def cexMi : SDPMediaInfo :=
  { audio_ssrc := 229236353, video_ssrc := 1607797317
    cname := "user1234567890@host-abcd1234".data
    audio_port := 9, video_port := 9, rtcp_port := 9 }

lemma xskl_ssrca_in_block (mi : SDPMediaInfo) : "x-skl-ssrca:".data <:+: xsklBlock mi := by
  refine ⟨['a', '='], natDigits mi.audio_ssrc ++ crlf ++ "a=x-skl-ssrcv:".data ++
    natDigits mi.video_ssrc ++ crlf ++ "a=x-skl-cname:".data ++ mi.cname, ?_⟩
  simp only [xsklBlock, List.append_assoc]
  rfl

lemma xskl_ssrcv_in_block (mi : SDPMediaInfo) : "x-skl-ssrcv:".data <:+: xsklBlock mi := by
  refine ⟨"a=x-skl-ssrca:".data ++ natDigits mi.audio_ssrc ++ crlf ++ ['a', '='],
    natDigits mi.video_ssrc ++ crlf ++ "a=x-skl-cname:".data ++ mi.cname, ?_⟩
  simp only [xsklBlock, List.append_assoc]
  rfl

lemma xskl_cname_in_block (mi : SDPMediaInfo) : "x-skl-cname:".data <:+: xsklBlock mi := by
  refine ⟨"a=x-skl-ssrca:".data ++ natDigits mi.audio_ssrc ++ crlf ++
    "a=x-skl-ssrcv:".data ++ natDigits mi.video_ssrc ++ crlf ++ ['a', '='],
    mi.cname, ?_⟩
  simp only [xsklBlock, List.append_assoc]
  rfl

/-- A line-shaped sentinel survives the first four rewriting steps of
enhance_answer (two ssrc substitutions, the cname substitution, the x-skl
append and the IPv4 substitution). -/
lemma sentinel_through_e4 (s ext : List Char) (mi : SDPMediaInfo) (T : List Char)
    {c₀ : Char} {T' : List Char} (hTc : T = c₀ :: T')
    (hd : ¬ c₀.isDigit = true) (hcP : c₀ ∉ ssrcPat) (hsT : ¬ ssrcPat <:+: T)
    (hcn : ¬ (c₀ ∈ cnamePat ∨ isPySpace c₀ = false)) (hcnT : ¬ cnamePat <:+: T)
    (hcross : ∀ i, i < T.length → ¬(T.drop i <+: cnamePat))
    (hip : ¬ (c₀.isDigit = true ∨ c₀ = '.')) (hdotT : '.' ∉ T)
    (hlastT : ¬((T.getLastD ' ').isDigit = true ∨ T.getLastD ' ' = '.'))
    (hT : T <:+: s) :
    T <:+: ipv4Sub ext
      (cnameSub mi.cname
        (ssrcSub "m=video".data (natDigits mi.video_ssrc)
          (ssrcSub "m=audio".data (natDigits mi.audio_ssrc) s)) ++ xsklBlock mi) := by
  have h1 := ssrcSub_preserves "m=audio".data (natDigits mi.audio_ssrc) T hTc hd hcP hsT s hT
  have h2 := ssrcSub_preserves "m=video".data (natDigits mi.video_ssrc) T hTc hd hcP hsT _ h1
  have h3 : T <:+: cnameSub mi.cname
      (ssrcSub "m=video".data (natDigits mi.video_ssrc)
        (ssrcSub "m=audio".data (natDigits mi.audio_ssrc) s)) :=
    scanSub_preserves (cnameMatcher mi.cname)
      (fun c => c ∈ cnamePat ∨ isPySpace c = false)
      hTc (cnameMatcher_hm1 mi.cname) hcn (cname_hB hcnT hcross mi.cname) _ h2
  have hne : T ≠ [] := by rw [hTc]; simp
  exact scanSub_preserves (ipv4Matcher ext) (fun c => c.isDigit = true ∨ c = '.')
    hTc (ipv4Matcher_hm1 ext) hip (ipv4_hB hne hdotT hlastT ext) _ (infix_extend_right h3)

/-- An x-skl attribute token of the appended block survives the IPv4
substitution. -/
lemma xskl_token_through_e4 (ext X tok : List Char) (mi : SDPMediaInfo)
    {c₀ : Char} {T' : List Char} (hTc : tok = c₀ :: T')
    (hip : ¬ (c₀.isDigit = true ∨ c₀ = '.')) (hdotT : '.' ∉ tok)
    (hlastT : ¬((tok.getLastD ' ').isDigit = true ∨ tok.getLastD ' ' = '.'))
    (h0 : tok <:+: xsklBlock mi) :
    tok <:+: ipv4Sub ext (X ++ xsklBlock mi) := by
  have hne : tok ≠ [] := by rw [hTc]; simp
  exact scanSub_preserves (ipv4Matcher ext) (fun c => c.isDigit = true ∨ c = '.')
    hTc (ipv4Matcher_hm1 ext) hip (ipv4_hB hne hdotT hlastT ext) _ (infix_extend_left h0)

/-- C3 (amended): for every SDP answer that contains the full
`a=rtcp-fb:103 goog-remb` and `a=rtpmap:103 H264/90000` lines and
CRLF-preceded `m=audio` and `m=video` section markers, the output of
enhance_answer passes every check of validate_sdp_answer: it contains
goog-remb, a=x-skl-ssrca, a=x-skl-ssrcv, a=x-skl-cname, the m=audio
section, the m=video section and H264.  (Amended from the original claim:
the hypotheses must locate the tokens on their SDP lines, and the
no-stray-IPv4 clause is dropped; both are refuted on bare-token inputs by
enhance_answer_claim_counterexample.) -/
theorem enhance_answer_validates (s ext : List Char) (mi : SDPMediaInfo)
    (hg : "\r\na=rtcp-fb:103 goog-remb\r\n".data <:+: s)
    (hh : "\r\na=rtpmap:103 H264/90000\r\n".data <:+: s)
    (ha : "\r\nm=audio".data <:+: s)
    (hv : "\r\nm=video".data <:+: s) :
    validate_all (validate_sdp_answer (enhance_answer s ext mi)) = true := by
  have Hg := sentinel_through_e4 s ext mi ("\r\na=rtcp-fb:103 goog-remb\r\n".data) rfl
    (by decide) (by decide) (by decide) (by decide) (by decide) (by decide)
    (by decide) (by decide) (by decide) hg
  have Hh := sentinel_through_e4 s ext mi ("\r\na=rtpmap:103 H264/90000\r\n".data) rfl
    (by decide) (by decide) (by decide) (by decide) (by decide) (by decide)
    (by decide) (by decide) (by decide) hh
  have Ha := sentinel_through_e4 s ext mi ("\r\nm=audio".data) rfl
    (by decide) (by decide) (by decide) (by decide) (by decide) (by decide)
    (by decide) (by decide) (by decide) ha
  have Hv := sentinel_through_e4 s ext mi ("\r\nm=video".data) rfl
    (by decide) (by decide) (by decide) (by decide) (by decide) (by decide)
    (by decide) (by decide) (by decide) hv
  have Hxa := xskl_token_through_e4 ext
    (cnameSub mi.cname (ssrcSub "m=video".data (natDigits mi.video_ssrc)
      (ssrcSub "m=audio".data (natDigits mi.audio_ssrc) s)))
    ("x-skl-ssrca:".data) mi rfl (by decide) (by decide) (by decide)
    (xskl_ssrca_in_block mi)
  have Hxv := xskl_token_through_e4 ext
    (cnameSub mi.cname (ssrcSub "m=video".data (natDigits mi.video_ssrc)
      (ssrcSub "m=audio".data (natDigits mi.audio_ssrc) s)))
    ("x-skl-ssrcv:".data) mi rfl (by decide) (by decide) (by decide)
    (xskl_ssrcv_in_block mi)
  have Hxc := xskl_token_through_e4 ext
    (cnameSub mi.cname (ssrcSub "m=video".data (natDigits mi.video_ssrc)
      (ssrcSub "m=audio".data (natDigits mi.audio_ssrc) s)))
    ("x-skl-cname:".data) mi rfl (by decide) (by decide) (by decide)
    (xskl_cname_in_block mi)
  have F1 : "goog-remb".data <:+: enhance_answer s ext mi := by
    have h1 : "goog-remb".data <:+: "\r\na=rtcp-fb:103 goog-remb\r\n".data := by decide
    exact insert_direction_passive_preserves (by decide) (by decide) (h1.trans Hg)
  have F2 : "x-skl-ssrca:".data <:+: enhance_answer s ext mi :=
    insert_direction_passive_preserves (by decide) (by decide) Hxa
  have F3 : "x-skl-ssrcv:".data <:+: enhance_answer s ext mi :=
    insert_direction_passive_preserves (by decide) (by decide) Hxv
  have F4 : "x-skl-cname:".data <:+: enhance_answer s ext mi :=
    insert_direction_passive_preserves (by decide) (by decide) Hxc
  have F5 : "m=audio".data <:+: enhance_answer s ext mi := by
    have h1 : "m=audio".data <:+: "\r\nm=audio".data := by decide
    exact insert_direction_passive_preserves (by decide) (by decide) (h1.trans Ha)
  have F6 : "m=video".data <:+: enhance_answer s ext mi := by
    have h1 : "m=video".data <:+: "\r\nm=video".data := by decide
    exact insert_direction_passive_preserves (by decide) (by decide) (h1.trans Hv)
  have F7 : "H264".data <:+: enhance_answer s ext mi := by
    have h1 : "H264".data <:+: "\r\na=rtpmap:103 H264/90000\r\n".data := by decide
    exact insert_direction_passive_preserves (by decide) (by decide) (h1.trans Hh)
  simp only [validate_sdp_answer, validate_all]
  rw [decide_eq_true F1, decide_eq_true F2, decide_eq_true F3, decide_eq_true F4,
      decide_eq_true F5, decide_eq_true F6, decide_eq_true F7]
  rfl

/-- C3 witness: a concrete Kurento-style answer satisfies the four line
hypotheses and the enhanced output passes all seven checks. -/
theorem enhance_answer_validates_witness :
    ("\r\na=rtcp-fb:103 goog-remb\r\n".data <:+: sdpAnswerSample) ∧
    ("\r\na=rtpmap:103 H264/90000\r\n".data <:+: sdpAnswerSample) ∧
    ("\r\nm=audio".data <:+: sdpAnswerSample) ∧
    ("\r\nm=video".data <:+: sdpAnswerSample) ∧
    validate_all (validate_sdp_answer
      (enhance_answer sdpAnswerSample extSample miSample)) = true :=
  ⟨by decide, by decide, by decide, by decide,
    enhance_answer_validates sdpAnswerSample extSample miSample
      (by decide) (by decide) (by decide) (by decide)⟩

/-- C3 counterexample to the original claim: this answer contains
goog-remb, m=audio, m=video and H264 as plain substrings, yet the enhanced
output fails the H264 check (the cname substitution consumes `cname:H264`)
and contains an IPv4 dotted-quad literal other than the external IP (the
rewrite of `1.2.3.456` inside `1.2.3.4567` glues the leftover digit 7 onto
the inserted IP, yielding 10.0.0.17). -/
theorem enhance_answer_claim_counterexample :
    ("goog-remb".data <:+: cexAnswer) ∧ ("m=audio".data <:+: cexAnswer) ∧
    ("m=video".data <:+: cexAnswer) ∧ ("H264".data <:+: cexAnswer) ∧
    (validate_sdp_answer (enhance_answer cexAnswer "10.0.0.1".data cexMi)).has_h264
      = false ∧
    ∃ mm ∈ ipv4_matches (enhance_answer cexAnswer "10.0.0.1".data cexMi),
      mm ≠ "10.0.0.1".data := by
  refine ⟨by decide, by decide, by decide, by decide, by decide, ?_⟩
  decide

end Livestream
